import Mathlib

/-!
Verification of the protocol/session core of the ESP32 hand-controller
configuration client (`esp32_controller.py`).

The development shallowly embeds the Python code that the verified claims
touch: the response cleaner (`clean_response`), the configuration-mirror
parser (`parse_config_response`, `parse_config_display`), the log formatter
(`log_message`), the numeric command setters (`set_motor_pulley`, ...,
`set_pid_output_max`), the update checker (`check_online_updates`), the
serial reader line handling (`read_serial`) and the firmware-flash
orchestration (`flash_firmware`, `flash_firmware_worker`).

Strings are modelled as `List Char`; Python string helpers (`strip`,
`split`, `in`, `int(...)`, `float(...)`) are given executable models below.
-/

/-- Text is modelled as a list of characters (Python `str`). -/
abbrev Chars := List Char

/-- The ASCII escape character `\x1b`, head of every ANSI escape sequence. -/
def escChar : Char := Char.ofNat 27

/-- Whitespace characters stripped by Python `str.strip()`
(space, tab, newline, carriage return, vertical tab, form feed). -/
def isPyWs (c : Char) : Bool :=
  c = ' ' || c = Char.ofNat 9 || c = Char.ofNat 10 || c = Char.ofNat 13 ||
  c = Char.ofNat 11 || c = Char.ofNat 12

/-- Drop leading Python whitespace. -/
def trimLead (l : Chars) : Chars := l.dropWhile isPyWs

/-- Drop trailing Python whitespace. -/
def trimTrail (l : Chars) : Chars := (trimLead l.reverse).reverse

/-- Model of Python `str.strip()`: drop leading and trailing whitespace. -/
def pyStrip (l : Chars) : Chars := trimTrail (trimLead l)

/-- Model of Python `needle in haystack` (substring containment). -/
def containsSub (hay pat : Chars) : Bool :=
  pat.isPrefixOf hay ||
    match hay with
    | [] => false
    | _ :: t => containsSub t pat

/-- The text before / after the first occurrence of `sep` in `s`
(`none` when `sep` does not occur). -/
def splitFirst (sep : Chars) : Chars → Option (Chars × Chars)
  | [] => if sep.isPrefixOf ([] : Chars) then some ([], []) else none
  | s@(c :: rest) =>
    if sep.isPrefixOf s then some ([], s.drop sep.length)
    else (splitFirst sep rest).map (fun p => (c :: p.1, p.2))

/-- Model of Python `s.split(sep)[1]`: the segment strictly between the
first and the second (non-overlapping) occurrence of `sep`, or everything
after the first occurrence when it is the only one.  Returns `[]` when
`sep` does not occur (the code only evaluates `[1]` after a containment
check). -/
def seg1 (sep s : Chars) : Chars :=
  match splitFirst sep s with
  | none => []
  | some (_, rest) =>
    match splitFirst sep rest with
    | none => rest
    | some (mid, _) => mid

/-- Model of Python `s.split(sep)[0]`: the text before the first
occurrence of `sep`, or all of `s` when `sep` does not occur. -/
def seg0 (sep s : Chars) : Chars :=
  match splitFirst sep s with
  | none => s
  | some (pre, _) => pre

/-- Model of Python `s.split('\n')`. -/
def splitNl : Chars → List Chars
  | [] => [[]]
  | c :: cs =>
    if c = Char.ofNat 10 then [] :: splitNl cs
    else
      match splitNl cs with
      | [] => [[c]]
      | h :: t => (c :: h) :: t

/-- Model of Python `'\n'.join(ls)`. -/
def joinNl : List Chars → Chars
  | [] => []
  | [l] => l
  | l :: ls => l ++ Char.ofNat 10 :: joinNl ls

/-- First whitespace-separated token (model of `s.split()[0]` for a
string known to contain a non-whitespace character). -/
def firstToken (l : Chars) : Chars := (trimLead l).takeWhile (fun c => !(isPyWs c))

/-- Accumulating parser for a digit string with single `_` separators
between digits (as accepted inside Python numeric literals handed to
`int()` / `float()`).  Returns the value and the number of digits. -/
def digitsUndAux (acc cnt : Nat) : Chars → Option (Nat × Nat)
  | [] => some (acc, cnt)
  | d :: r =>
    if d = '_' then
      match r with
      | [] => none
      | d2 :: r2 =>
        if d2.isDigit then digitsUndAux (acc * 10 + (d2.toNat - 48)) (cnt + 1) r2
        else none
    else
      if d.isDigit then digitsUndAux (acc * 10 + (d.toNat - 48)) (cnt + 1) r
      else none

/-- A non-empty digit string, with optional single `_` separators between
digits; value together with its digit count. -/
def digitsUnd : Chars → Option (Nat × Nat)
  | [] => none
  | c :: r =>
    if c.isDigit then digitsUndAux (c.toNat - 48) 1 r else none

/-- Model of Python `int(s)` on decimal text: optional surrounding
whitespace, optional sign, non-empty digits (with `_` separators).
Non-decimal bases and non-ASCII digits are outside the model. -/
def pyInt (s : Chars) : Option Int :=
  match pyStrip s with
  | [] => none
  | d :: ds =>
    if d = '+' then (digitsUnd ds).map (fun p => (p.1 : Int))
    else if d = '-' then (digitsUnd ds).map (fun p => -(p.1 : Int))
    else (digitsUnd (d :: ds)).map (fun p => (p.1 : Int))

/-- A Python float value as far as the mirror observes it: a finite value
(represented exactly as a rational), an infinity, or a NaN. -/
inductive PyF where
  | fin (q : ℚ)
  | inf
  | ninf
  | nan
deriving DecidableEq, Repr

/-- Exponent part of a float literal: optional sign then digits. -/
def pyExp (l : Chars) : Option Int :=
  match l with
  | '+' :: ds => (digitsUnd ds).map (fun p => (p.1 : Int))
  | '-' :: ds => (digitsUnd ds).map (fun p => -(p.1 : Int))
  | ds => (digitsUnd ds).map (fun p => (p.1 : Int))

/-- Mantissa of a float literal: `digits`, `digits.digits`, `digits.` or
`.digits`; returns the exact value as numerator over a power of ten
(`n / 10 ^ k`). -/
def pyMantissa (m : Chars) : Option (Nat × Nat) :=
  let ip := m.takeWhile (fun c => c != '.')
  let rest := m.drop ip.length
  let fpOpt : Option Chars :=
    match rest with
    | [] => some []
    | _ :: fs => if fs.any (fun c => c == '.') then none else some fs
  match fpOpt with
  | none => none
  | some fp =>
    if ip = [] ∧ fp = [] then none
    else
      let ipv : Option (Nat × Nat) := if ip = [] then some (0, 0) else digitsUnd ip
      let fpv : Option (Nat × Nat) := if fp = [] then some (0, 0) else digitsUnd fp
      match ipv, fpv with
      | some (i, _), some (f, k) => some (i * 10 ^ k + f, k)
      | _, _ => none

/-- Model of Python `float(s)`: optional surrounding whitespace, optional
sign, then either a decimal mantissa with optional exponent, or one of the
special words `inf` / `infinity` / `nan` (case-insensitive).  The exact
finite value is assembled with `mkRat`. -/
def pyFloat (s : Chars) : Option PyF :=
  let t := pyStrip s
  let sign : Int := match t with
    | '-' :: _ => -1
    | _ => 1
  let r : Chars := match t with
    | '+' :: r => r
    | '-' :: r => r
    | r => r
  let rl := r.map Char.toLower
  if rl = ('i' :: 'n' :: 'f' :: []) ∨ rl = "infinity".data then
    some (if sign = 1 then PyF.inf else PyF.ninf)
  else if rl = ('n' :: 'a' :: 'n' :: []) then some PyF.nan
  else
    let m := r.takeWhile (fun c => c != 'e' && c != 'E')
    let erest := r.drop m.length
    let expOpt : Option Int :=
      match erest with
      | [] => some 0
      | _ :: es => pyExp es
    match pyMantissa m, expOpt with
    | some (n, k), some e =>
      some (PyF.fin (if 0 ≤ e then mkRat (sign * (n * 10 ^ e.toNat)) (10 ^ k)
        else mkRat (sign * n) (10 ^ k * 10 ^ (-e).toNat)))
    | _, _ => none

/-- Fe escape final byte: the regex alternative `[@-Z\\-_]`
(`0x40`-`0x5A` or `0x5C`-`0x5F`). -/
def isFe (c : Char) : Bool :=
  decide ((64 ≤ c.toNat ∧ c.toNat ≤ 90) ∨ (92 ≤ c.toNat ∧ c.toNat ≤ 95))

/-- CSI parameter byte `[0-?]` (`0x30`-`0x3F`). -/
def isCsiParam (c : Char) : Bool := decide (48 ≤ c.toNat ∧ c.toNat ≤ 63)

/-- CSI intermediate byte, code `0x20` to `0x2F` (space to slash). -/
def isCsiInter (c : Char) : Bool := decide (32 ≤ c.toNat ∧ c.toNat ≤ 47)

/-- CSI final byte `[@-~]` (`0x40`-`0x7E`). -/
def isCsiFinal (c : Char) : Bool := decide (64 ≤ c.toNat ∧ c.toNat ≤ 126)

/-- Attempt to match the body (after the escape character) of the ANSI
escape regex used by `clean_response` (an Fe final byte, or a CSI
sequence: a bracket, parameter bytes, intermediate bytes and a final
byte); on success returns the remainder of the text. -/
def matchAnsi : Chars → Option Chars
  | [] => none
  | c :: rest =>
    if isFe c then some rest
    else if c = '[' then
      match (rest.dropWhile isCsiParam).dropWhile isCsiInter with
      | [] => none
      | f :: r3 => if isCsiFinal f then some r3 else none
    else none

theorem matchAnsi_length {l r : Chars} (h : matchAnsi l = some r) :
    r.length ≤ l.length := by
  cases l with
  | nil => simp [matchAnsi] at h
  | cons c rest =>
    simp only [matchAnsi] at h
    by_cases hfe : isFe c = true
    · rw [if_pos hfe] at h
      injection h with h
      subst h
      exact Nat.le_succ _
    · rw [if_neg hfe] at h
      by_cases hbr : c = '['
      · rw [if_pos hbr] at h
        rcases h2 : (rest.dropWhile isCsiParam).dropWhile isCsiInter with _ | ⟨f, r3⟩ <;>
          rw [h2] at h <;> dsimp only at h
        · cases h
        · by_cases hf : isCsiFinal f = true
          · rw [if_pos hf] at h
            injection h with h
            subst h
            have h3 : (f :: r3).length ≤ (rest.dropWhile isCsiParam).length := by
              rw [← h2]
              exact (List.dropWhile_suffix _).sublist.length_le
            have h5 : (rest.dropWhile isCsiParam).length ≤ rest.length :=
              (List.dropWhile_suffix _).sublist.length_le
            simp only [List.length_cons] at h3 ⊢
            omega
          · rw [if_neg hf] at h
            cases h
      · rw [if_neg hbr] at h
        cases h

/-- Single left-to-right scan of the ANSI regex substitution, fuelled by
an upper bound on the number of characters still to inspect (each step
consumes at least one character, so fuel equal to the length is always
sufficient; exhausted fuel returns the rest unchanged). -/
def ansiStripFuel : Nat → Chars → Chars
  | 0, l => l
  | _, [] => []
  | fuel + 1, c :: rest =>
    if c = escChar then
      match matchAnsi rest with
      | some r => ansiStripFuel fuel r
      | none => c :: ansiStripFuel fuel rest
    else c :: ansiStripFuel fuel rest

/-- Model of the regex substitution of `clean_response` that removes
every non-overlapping match of the ANSI escape regex in one
left-to-right scan. -/
def ansiStrip (l : Chars) : Chars := ansiStripFuel l.length l

/-- The fixed denylist of internal log prefixes skipped by
`clean_response`. -/
def skipPatterns : List Chars :=
  ["I (".data,
   "USB_SERIAL: Processing command:".data,
   "USB_SERIAL: Parsed command type:".data,
   "USB_SERIAL: Motor pulley teeth set to:".data,
   "USB_SERIAL: Wheel pulley teeth set to:".data,
   "USB_SERIAL: Wheel diameter set to:".data,
   "USB_SERIAL: Motor poles set to:".data,
   "USB_SERIAL: Throttle inversion:".data,
   "USB_SERIAL: Level assistant:".data,
   "USB_SERIAL: Odometer reset".data,
   "USB_SERIAL: Configuration:".data,
   "USB_SERIAL: Available commands:".data,
   "USB_SERIAL: Unknown command:".data]

/-- The per-line filter of `clean_response`: strip the line, drop it when
it is empty, matches the denylist, or is just the prompt marker `>`. -/
def keepLine (l : Chars) : Option Chars :=
  let t := pyStrip l
  if t = [] then none
  else if skipPatterns.any (fun p => containsSub t p) then none
  else if t = ['>'] then none
  else some t

/-- Model of `clean_response`: remove ANSI escape sequences, filter the
lines, return `none` when nothing remains, otherwise the kept lines
joined with newlines. -/
def clean_response (response : Chars) : Option Chars :=
  let cleaned := ansiStrip response
  let filtered := (splitNl cleaned).filterMap keepLine
  if filtered = [] then none else some (joinNl filtered)

/-- The client-side configuration mirror (`self.config`). -/
structure Config where
  invert_throttle : Bool
  level_assistant : Bool
  speed_unit_mph : Bool
  motor_pulley : Int
  wheel_pulley : Int
  wheel_diameter_mm : Int
  motor_poles : Int
  ble_connected : Bool
  firmware_version : Chars
  pid_kp : PyF
  pid_ki : PyF
  pid_kd : PyF
  pid_output_max : PyF
deriving DecidableEq, Repr

/-- The initial mirror contents set in `__init__`. -/
def initialConfig : Config where
  invert_throttle := false
  level_assistant := false
  speed_unit_mph := false
  motor_pulley := 15
  wheel_pulley := 33
  wheel_diameter_mm := 115
  motor_poles := 14
  ble_connected := false
  firmware_version := "Unknown".data
  pid_kp := PyF.fin (mkRat 8 10)
  pid_ki := PyF.fin (mkRat 5 10)
  pid_kd := PyF.fin (mkRat 5 100)
  pid_output_max := PyF.fin 48

/-- `parse_config_response`, throttle-inversion branch. -/
def stepThrottle (r : Chars) (c : Config) : Config :=
  if containsSub r "Throttle inversion: ENABLED".data then { c with invert_throttle := true }
  else if containsSub r "Throttle inversion: DISABLED".data then { c with invert_throttle := false }
  else c

/-- `parse_config_response`, level-assistant branch. -/
def stepLevel (r : Chars) (c : Config) : Config :=
  if containsSub r "Level assistant: ENABLED".data then { c with level_assistant := true }
  else if containsSub r "Level assistant: DISABLED".data then { c with level_assistant := false }
  else c

/-- `parse_config_response`, speed-unit branch. -/
def stepSpeed (r : Chars) (c : Config) : Config :=
  if containsSub r "Speed Unit:".data then { c with speed_unit_mph := containsSub r "mi/h".data }
  else c

/-- `parse_config_response`, `PID Kp set to:` branch (a failed float parse
is swallowed by the `except: pass`). -/
def stepKp (r : Chars) (c : Config) : Config :=
  if containsSub r "PID Kp set to:".data then
    match pyFloat (seg1 "PID Kp set to:".data r) with
    | some v => { c with pid_kp := v }
    | none => c
  else c

/-- `parse_config_response`, `PID Ki set to:` branch. -/
def stepKi (r : Chars) (c : Config) : Config :=
  if containsSub r "PID Ki set to:".data then
    match pyFloat (seg1 "PID Ki set to:".data r) with
    | some v => { c with pid_ki := v }
    | none => c
  else c

/-- `parse_config_response`, `PID Kd set to:` branch. -/
def stepKd (r : Chars) (c : Config) : Config :=
  if containsSub r "PID Kd set to:".data then
    match pyFloat (seg1 "PID Kd set to:".data r) with
    | some v => { c with pid_kd := v }
    | none => c
  else c

/-- `parse_config_response`, `PID Output Max set to:` branch. -/
def stepOutMax (r : Chars) (c : Config) : Config :=
  if containsSub r "PID Output Max set to:".data then
    match pyFloat (seg1 "PID Output Max set to:".data r) with
    | some v => { c with pid_output_max := v }
    | none => c
  else c

/-- One line of the `get_pid_params` block (`Kp (Proportional):` etc.);
the value is the text between the first and second colon of the line. -/
def pidBlockLine (c : Config) (line : Chars) : Config :=
  if containsSub line "Kp (Proportional):".data then
    match pyFloat (seg1 [':'] line) with
    | some v => { c with pid_kp := v }
    | none => c
  else if containsSub line "Ki (Integral):".data then
    match pyFloat (seg1 [':'] line) with
    | some v => { c with pid_ki := v }
    | none => c
  else if containsSub line "Kd (Derivative):".data then
    match pyFloat (seg1 [':'] line) with
    | some v => { c with pid_kd := v }
    | none => c
  else if containsSub line "Output Max:".data then
    match pyFloat (seg1 [':'] line) with
    | some v => { c with pid_output_max := v }
    | none => c
  else c

/-- `parse_config_response`, `=== Level Assistant PID Parameters ===`
block branch. -/
def stepPidBlock (r : Chars) (c : Config) : Config :=
  if containsSub r "=== Level Assistant PID Parameters ===".data then
    (splitNl r).foldl pidBlockLine c
  else c

/-- `parse_config_response`, `Motor pulley teeth set to:` branch. -/
def stepMotorPulley (r : Chars) (c : Config) : Config :=
  if containsSub r "Motor pulley teeth set to:".data then
    match pyInt (seg1 "Motor pulley teeth set to:".data r) with
    | some v => { c with motor_pulley := v }
    | none => c
  else c

/-- `parse_config_response`, `Wheel pulley teeth set to:` branch. -/
def stepWheelPulley (r : Chars) (c : Config) : Config :=
  if containsSub r "Wheel pulley teeth set to:".data then
    match pyInt (seg1 "Wheel pulley teeth set to:".data r) with
    | some v => { c with wheel_pulley := v }
    | none => c
  else c

/-- `parse_config_response`, `Wheel diameter set to:` branch: the text
after the label is cut at `mm` before the integer parse. -/
def stepWheelDia (r : Chars) (c : Config) : Config :=
  if containsSub r "Wheel diameter set to:".data then
    match pyInt (seg0 "mm".data (seg1 "Wheel diameter set to:".data r)) with
    | some v => { c with wheel_diameter_mm := v }
    | none => c
  else c

/-- `parse_config_response`, `Motor poles set to:` branch. -/
def stepMotorPoles (r : Chars) (c : Config) : Config :=
  if containsSub r "Motor poles set to:".data then
    match pyInt (seg1 "Motor poles set to:".data r) with
    | some v => { c with motor_poles := v }
    | none => c
  else c

/-- `parse_config_response`, firmware-version branch: the stored text is
the segment between the first and second colon of the response. -/
def stepFirmware (r : Chars) (c : Config) : Config :=
  if containsSub r "Firmware version:".data || containsSub r "Firmware Version:".data then
    { c with firmware_version := pyStrip (seg1 [':'] r) }
  else c

/-- Lowercased copy of a string (Python `str.lower()` on ASCII text). -/
def lowerStr (l : Chars) : Chars := l.map Char.toLower

/-- The key of a `key: value` line: the stripped text before the first
colon. -/
def displayKey (line : Chars) : Chars :=
  pyStrip (line.takeWhile (fun ch => ch != ':'))

/-- The value of a `key: value` line (`split(':', 1)[1]`): the stripped
text after the first colon. -/
def displayValue (line : Chars) : Chars :=
  pyStrip ((line.dropWhile (fun ch => ch != ':')).drop 1)

/-- The wheel-diameter value as coerced by the display parser: the first
whitespace token when the value contains a space (handles `115 mm`),
otherwise the value itself. -/
def diaValue (value : Chars) : Chars :=
  if value.any (fun ch => ch == ' ') then firstToken value else value

/-- The single mirror update described by one `key: value` line of the
configuration display (or no update at all). -/
inductive DispUpd where
  | fw (v : Chars)
  | thr (b : Bool)
  | lvl (b : Bool)
  | spd (b : Bool)
  | mp (n : Int)
  | wp (n : Int)
  | wd (n : Int)
  | pol (n : Int)
  | ble (b : Bool)
  | noUpd
deriving DecidableEq, Repr

/-- One `key: value` line of `parse_config_display`: split at the first
colon, strip both parts, dispatch on the alias table; a failing `int()`
coercion aborts only this line (`except ... pass`), which is no
update. -/
def displayLineClass (line : Chars) : DispUpd :=
  if line.any (fun ch => ch == ':') then
    let key := displayKey line
    let value := displayValue line
    if key = "Firmware Version".data ∨ key = "Firmware version".data then
      DispUpd.fw value
    else if key = "Throttle Inverted".data ∨ key = "Throttle inversion".data then
      DispUpd.thr (lowerStr value = "yes".data ∨ lowerStr value = "enabled".data ∨
        lowerStr value = "true".data : Bool)
    else if key = "Level Assistant".data ∨ key = "Level assistant".data then
      DispUpd.lvl (lowerStr value = "yes".data ∨ lowerStr value = "enabled".data ∨
        lowerStr value = "true".data : Bool)
    else if key = "Speed Unit".data ∨ key = "Speed unit".data then
      DispUpd.spd (lowerStr value = "mi/h".data ∨ lowerStr value = "true".data : Bool)
    else if key = "Motor Pulley Teeth".data ∨ key = "Motor pulley teeth".data then
      match pyInt value with
      | some v => DispUpd.mp v
      | none => DispUpd.noUpd
    else if key = "Wheel Pulley Teeth".data ∨ key = "Wheel pulley teeth".data then
      match pyInt value with
      | some v => DispUpd.wp v
      | none => DispUpd.noUpd
    else if key = "Wheel Diameter".data ∨ key = "Wheel diameter".data then
      match pyInt (diaValue value) with
      | some v => DispUpd.wd v
      | none => DispUpd.noUpd
    else if key = "Motor Poles".data ∨ key = "Motor poles".data then
      match pyInt value with
      | some v => DispUpd.pol v
      | none => DispUpd.noUpd
    else if key = "BLE Connected".data ∨ key = "BLE connected".data then
      DispUpd.ble (lowerStr value = "yes".data ∨ lowerStr value = "connected".data ∨
        lowerStr value = "true".data : Bool)
    else DispUpd.noUpd
  else DispUpd.noUpd

/-- Apply one display update to the mirror. -/
def applyDispUpd (c : Config) : DispUpd → Config
  | DispUpd.fw v => { c with firmware_version := v }
  | DispUpd.thr b => { c with invert_throttle := b }
  | DispUpd.lvl b => { c with level_assistant := b }
  | DispUpd.spd b => { c with speed_unit_mph := b }
  | DispUpd.mp n => { c with motor_pulley := n }
  | DispUpd.wp n => { c with wheel_pulley := n }
  | DispUpd.wd n => { c with wheel_diameter_mm := n }
  | DispUpd.pol n => { c with motor_poles := n }
  | DispUpd.ble b => { c with ble_connected := b }
  | DispUpd.noUpd => c

/-- One `key: value` line applied to the mirror. -/
def displayLineUpd (c : Config) (line : Chars) : Config :=
  applyDispUpd c (displayLineClass line)

/-- Model of `parse_config_display`: process every `key: value` line of
the dump independently, in order. -/
def parse_config_display (c : Config) (response : Chars) : Config :=
  (splitNl response).foldl displayLineUpd c

/-- The trigger keywords that route an individual line into
`parse_config_display`. -/
def displayKeywords : List Chars :=
  ["Throttle Inverted:".data, "Motor Pulley Teeth:".data, "Wheel Pulley Teeth:".data,
   "Wheel Diameter:".data, "Motor Poles:".data, "BLE Connected:".data,
   "Firmware Version:".data]

/-- `parse_config_response`, configuration-display dispatch branch. -/
def stepDisplay (r : Chars) (c : Config) : Config :=
  if containsSub r "Current Configuration".data || containsSub r "Configuration:".data then
    parse_config_display c r
  else if displayKeywords.any (fun k => containsSub r k) then
    parse_config_display c r
  else c

/-- Model of `parse_config_response`: the non-exclusive pattern branches,
applied to the mirror in source order. -/
def parse_config_response (c : Config) (r : Chars) : Config :=
  stepDisplay r (stepFirmware r (stepMotorPoles r (stepWheelDia r (stepWheelPulley r
    (stepMotorPulley r (stepPidBlock r (stepOutMax r (stepKd r (stepKi r
      (stepKp r (stepSpeed r (stepLevel r (stepThrottle r c)))))))))))))

/-- Model of `log_message`: the text inserted into the response area for
one message, `none` for the swallowed help-command line.  Categories and
prefixes follow the source branch chain. -/
def log_message (m : Chars) : Option Chars :=
  let nl : Chars := [Char.ofNat 10]
  if "Sent:".data.isPrefixOf m then some ("  ".data ++ m ++ nl)
  else if containsSub m "set to:".data then some ("[OK] ".data ++ m ++ nl)
  else if containsSub m "Throttle inversion:".data then
    some ("[OK] Throttle inversion: ".data ++
      (if containsSub m "ENABLED".data then "enabled".data else "disabled".data) ++ nl)
  else if containsSub m "Level assistant:".data then
    some ("[OK] Level assistant: ".data ++
      (if containsSub m "ENABLED".data then "enabled".data else "disabled".data) ++ nl)
  else if containsSub m "Odometer reset successfully".data then some ("[OK] ".data ++ m ++ nl)
  else if containsSub m "Odometer reset".data then some ("[OK] ".data ++ m ++ nl)
  else if containsSub m "Unknown command:".data then some ("[ERROR] ".data ++ m ++ nl)
  else if containsSub m "=== Hand Controller Commands ===".data then some (m ++ nl)
  else if containsSub m "help".data && containsSub m "Show this help message".data then none
  else if ["invert_throttle".data, "level_assistant".data, "reset_odometer".data,
           "set_motor_pulley".data, "set_wheel_pulley".data, "set_wheel_size".data,
           "set_motor_poles".data, "get_config".data].any (fun cmd => containsSub m cmd) then
    some ("  ".data ++ m ++ nl)
  else if containsSub m "calibrate_throttle".data &&
      containsSub m "Manually calibrate throttle range".data then some ("  ".data ++ m ++ nl)
  else if containsSub m "get_calibration".data &&
      containsSub m "Show throttle calibration status".data then some ("  ".data ++ m ++ nl)
  else if containsSub m "Calibration progress:".data then some ("[PROGRESS] ".data ++ m ++ nl)
  else if containsSub m "Calibration complete!".data then some ("[OK] ".data ++ m ++ nl)
  else if containsSub m "Calibration failed".data then some ("[ERROR] ".data ++ m ++ nl)
  else if containsSub m "Raw range:".data || containsSub m "Calibrated range:".data then
    some ("  ".data ++ m ++ nl)
  else if containsSub m "Calibration Status:".data then some ("[STATUS] ".data ++ m ++ nl)
  else if containsSub m "Current ADC Reading:".data ||
      containsSub m "Current Mapped Value:".data then some ("  ".data ++ m ++ nl)
  else if containsSub m "Throttle signals were set to neutral during calibration".data then
    some ("[SAFETY] ".data ++ m ++ nl)
  else if containsSub m "Calibrated Min Value:".data || containsSub m "Calibrated Max Value:".data
      || containsSub m "Calibrated Range:".data then some ("  ".data ++ m ++ nl)
  else some (m ++ nl)

/-- Outcome of a setter invocation in the connected state: either a
command line handed to `send_serial_command`, or a validation error shown
before any transmission. -/
inductive SetterAction where
  | send (cmd : Chars)
  | reject (msg : Chars)
deriving DecidableEq, Repr

/-- `set_motor_pulley` (connected state): the range gate before
transmission. -/
def set_motor_pulley (teeth : Int) : SetterAction :=
  if teeth ≤ 0 ∨ teeth > 255 then SetterAction.reject "Pulley teeth must be between 1 and 255".data
  else SetterAction.send ("set_motor_pulley ".data ++ (toString teeth).data)

/-- `set_wheel_pulley` (connected state). -/
def set_wheel_pulley (teeth : Int) : SetterAction :=
  if teeth ≤ 0 ∨ teeth > 255 then SetterAction.reject "Pulley teeth must be between 1 and 255".data
  else SetterAction.send ("set_wheel_pulley ".data ++ (toString teeth).data)

/-- `set_wheel_size` (connected state). -/
def set_wheel_size (size : Int) : SetterAction :=
  if size ≤ 0 ∨ size > 255 then
    SetterAction.reject "Wheel diameter must be between 1 and 255 mm".data
  else SetterAction.send ("set_wheel_size ".data ++ (toString size).data)

/-- `set_motor_poles` (connected state). -/
def set_motor_poles (poles : Int) : SetterAction :=
  if poles ≤ 0 ∨ poles > 255 then SetterAction.reject "Motor poles must be between 1 and 255".data
  else SetterAction.send ("set_motor_poles ".data ++ (toString poles).data)

/-- `set_pid_kp` (connected state): validation gate, optimistic mirror
update, then transmission.  The GUI float input is modelled as an exact
rational. -/
def set_pid_kp (c : Config) (kp : ℚ) : Config × SetterAction :=
  if kp < 0 ∨ kp > 10 then (c, SetterAction.reject "Kp must be between 0.0 and 10.0".data)
  else ({ c with pid_kp := PyF.fin kp },
    SetterAction.send ("set_pid_kp ".data ++ (toString kp).data))

/-- `set_pid_ki` (connected state). -/
def set_pid_ki (c : Config) (ki : ℚ) : Config × SetterAction :=
  if ki < 0 ∨ ki > 2 then (c, SetterAction.reject "Ki must be between 0.0 and 2.0".data)
  else ({ c with pid_ki := PyF.fin ki },
    SetterAction.send ("set_pid_ki ".data ++ (toString ki).data))

/-- `set_pid_kd` (connected state). -/
def set_pid_kd (c : Config) (kd : ℚ) : Config × SetterAction :=
  if kd < 0 ∨ kd > 1 then (c, SetterAction.reject "Kd must be between 0.0 and 1.0".data)
  else ({ c with pid_kd := PyF.fin kd },
    SetterAction.send ("set_pid_kd ".data ++ (toString kd).data))

/-- `set_pid_output_max` (connected state). -/
def set_pid_output_max (c : Config) (m : ℚ) : Config × SetterAction :=
  if m < 10 ∨ m > 100 then (c, SetterAction.reject "Output Max must be between 10.0 and 100.0".data)
  else ({ c with pid_output_max := PyF.fin m },
    SetterAction.send ("set_pid_output_max ".data ++ (toString m).data))

/-- Outcome of the online update check. -/
inductive UpdateOutcome where
  | unknownVersion
  | updateAvailable
  | upToDate
  | compareError
deriving DecidableEq, Repr

/-- Model of `tag_name.lstrip('v')`: drop every leading `v`. -/
def lstripV (s : Chars) : Chars := s.dropWhile (fun c => c == 'v')

/-- Modelled from the spec and the `packaging.version` library (external
collaborator): a release version is a dotted list of decimal numerals;
tags outside this fragment (pre/post/dev segments, epochs) are treated as
unparseable and routed to the comparison-error branch. -/
def parseVer (s : Chars) : Option (List Nat) :=
  (s.foldr (fun c acc =>
      if c = '.' then [] :: acc
      else match acc with
        | [] => [[c]]
        | h :: t => (c :: h) :: t) ([[]] : List Chars)).mapM
    (fun p => if p ≠ [] ∧ p.all Char.isDigit then
        some (p.foldl (fun n c => n * 10 + (c.toNat - 48)) 0)
      else none)

/-- Strict semantic ordering of release tuples, padding the shorter one
with zeros (the `packaging.version` ordering on plain releases). -/
def verLt : List Nat → List Nat → Bool
  | [], [] => false
  | [], y :: ys => if y > 0 then true else verLt [] ys
  | _ :: _, [] => false
  | x :: xs, y :: ys => if x < y then true else if x = y then verLt xs ys else false

/-- Model of the decision core of `check_online_updates`: the latest tag
has its leading `v` stripped; a current version of `Unknown` short-circuits
before any comparison; otherwise the two versions are compared and strict
less-than reports an available update. -/
def check_online_updates (tagName current : Chars) : UpdateOutcome :=
  let latest := lstripV tagName
  if current = "Unknown".data then UpdateOutcome.unknownVersion
  else
    match parseVer current, parseVer latest with
    | some c, some l =>
      if verLt c l then UpdateOutcome.updateAvailable else UpdateOutcome.upToDate
    | _, _ => UpdateOutcome.compareError

/-- The Unicode replacement character `U+FFFD`. -/
def replChar : Char := Char.ofNat 65533

/-- A UTF-8 continuation byte (`0x80`-`0xBF`). -/
def isCont (b : Nat) : Bool := decide (128 ≤ b ∧ b ≤ 191)

/-- Error output of the UTF-8 decoder: a replacement character under
`errors='replace'`, nothing under `errors='ignore'`. -/
def errOut (repl : Bool) : List Char := if repl then [replChar] else []

/-- Allowed second byte of a three-byte UTF-8 sequence (excludes overlong
encodings and surrogates). -/
def validB2three (b b2 : Nat) : Bool :=
  if b = 224 then decide (160 ≤ b2 ∧ b2 ≤ 191)
  else if b = 237 then decide (128 ≤ b2 ∧ b2 ≤ 159)
  else isCont b2

/-- Allowed second byte of a four-byte UTF-8 sequence (excludes overlong
encodings and values above `U+10FFFF`). -/
def validB2four (b b2 : Nat) : Bool :=
  if b = 240 then decide (144 ≤ b2 ∧ b2 ≤ 191)
  else if b = 244 then decide (128 ≤ b2 ∧ b2 ≤ 143)
  else isCont b2

/-- Incremental UTF-8 decoder with a Python-style error handler: on an
invalid sequence the offending bytes (the maximal valid prefix, at least
one byte) are consumed and `errOut` is emitted; decoding never fails.
Fuelled by an upper bound on the bytes still to inspect (each step
consumes at least one byte, so fuel equal to the length always
suffices). -/
def utf8DecodeFuel (repl : Bool) : Nat → List Nat → List Char
  | _, [] => []
  | 0, _ => []
  | fuel + 1, b :: rest =>
    if b < 128 then Char.ofNat b :: utf8DecodeFuel repl fuel rest
    else if 194 ≤ b ∧ b ≤ 223 then
      match rest with
      | [] => errOut repl
      | b2 :: r2 =>
        if isCont b2 then
          Char.ofNat ((b - 192) * 64 + (b2 - 128)) :: utf8DecodeFuel repl fuel r2
        else errOut repl ++ utf8DecodeFuel repl fuel (b2 :: r2)
    else if 224 ≤ b ∧ b ≤ 239 then
      match rest with
      | [] => errOut repl
      | b2 :: r2 =>
        if validB2three b b2 then
          match r2 with
          | [] => errOut repl
          | b3 :: r3 =>
            if isCont b3 then
              Char.ofNat ((b - 224) * 4096 + (b2 - 128) * 64 + (b3 - 128)) ::
                utf8DecodeFuel repl fuel r3
            else errOut repl ++ utf8DecodeFuel repl fuel (b3 :: r3)
        else errOut repl ++ utf8DecodeFuel repl fuel (b2 :: r2)
    else if 240 ≤ b ∧ b ≤ 244 then
      match rest with
      | [] => errOut repl
      | b2 :: r2 =>
        if validB2four b b2 then
          match r2 with
          | [] => errOut repl
          | b3 :: r3 =>
            if isCont b3 then
              match r3 with
              | [] => errOut repl
              | b4 :: r4 =>
                if isCont b4 then
                  Char.ofNat ((b - 240) * 262144 + (b2 - 128) * 4096 +
                    (b3 - 128) * 64 + (b4 - 128)) :: utf8DecodeFuel repl fuel r4
                else errOut repl ++ utf8DecodeFuel repl fuel (b4 :: r4)
            else errOut repl ++ utf8DecodeFuel repl fuel (b3 :: r3)
        else errOut repl ++ utf8DecodeFuel repl fuel (b2 :: r2)
    else errOut repl ++ utf8DecodeFuel repl fuel rest

/-- Model of `decode('utf-8', ...)` on a byte sequence. -/
def utf8Decode (repl : Bool) (bs : List Nat) : List Char :=
  utf8DecodeFuel repl bs.length bs

/-- Model of one `read_serial` loop body on a received line's bytes:
`readline().decode('utf-8', errors='ignore').strip()`, forwarding the
line to the queue only when non-empty. -/
def read_serial (bytes : List Nat) : Option Chars :=
  let line := pyStrip (utf8Decode false bytes)
  if line = [] then none else some line

/-- Modelled from the spec: the same reader step but decoding with lossy
replacement (`errors='replace'`), as section 4.2 describes it. -/
def read_serial_replace (bytes : List Nat) : Option Chars :=
  let line := pyStrip (utf8Decode true bytes)
  if line = [] then none else some line

/-- Environment of one flash attempt: the GUI inputs, the filesystem
facts the code queries, and the behaviour of the external subprocess. -/
structure FlashEnv where
  firmware_path : Chars
  firmware_exists : Bool
  idf_path : Chars
  export_sh_exists : Bool
  esptool_py_exists : Bool
  port : Chars
  confirmed : Bool
  sub_output : List Chars
  sub_exit : Int
deriving Repr

/-- Terminal outcome of a flash attempt. -/
inductive FlashOutcome where
  | notStarted
  | complete
  | failed (reason : Chars)
deriving DecidableEq, Repr

/-- Result of a flash attempt: outcome, whether the external subprocess
was invoked, and the `[FLASH]`-prefixed lines forwarded to the log sink
from the subprocess's streamed output. -/
structure FlashResult where
  outcome : FlashOutcome
  invoked : Bool
  flash_lines : List Chars
deriving Repr

/-- Model of `flash_firmware_worker`: resolve the esptool command for the
chosen strategy, stream each subprocess output line to the log sink
prefixed with `[FLASH]`, and succeed exactly on exit code 0. -/
def flash_firmware_worker (e : FlashEnv) : FlashResult :=
  if e.idf_path ≠ "esptool".data ∧ e.idf_path ≠ "pip_esptool".data ∧
      ¬ e.esptool_py_exists then
    { outcome := FlashOutcome.failed "esptool.py not found in ESP-IDF installation".data
      invoked := false
      flash_lines := [] }
  else
    { outcome :=
        if e.sub_exit = 0 then FlashOutcome.complete
        else FlashOutcome.failed
          ("Flashing failed with return code ".data ++ (toString e.sub_exit).data)
      invoked := true
      flash_lines := e.sub_output.map (fun l =>
        "[FLASH] ".data ++ pyStrip l ++ [Char.ofNat 10]) }

/-- Model of `flash_firmware`: input validation in source order (firmware
file, tool strategy, port, confirmation); any validation failure is
terminal before the subprocess is invoked. -/
def flash_firmware (e : FlashEnv) : FlashResult :=
  if e.firmware_path = [] ∨ ¬ e.firmware_exists then
    { outcome := FlashOutcome.failed "Please select a valid firmware file first".data
      invoked := false, flash_lines := [] }
  else if e.idf_path = [] then
    { outcome := FlashOutcome.failed "Please set ESP-IDF path or install esptool via pip".data
      invoked := false, flash_lines := [] }
  else if e.idf_path ≠ "esptool".data ∧ e.idf_path ≠ "pip_esptool".data ∧
      ¬ e.export_sh_exists then
    { outcome := FlashOutcome.failed
        "Please set a valid ESP-IDF installation path or install esptool via pip".data
      invoked := false, flash_lines := [] }
  else if e.port = [] then
    { outcome := FlashOutcome.failed "Please select a serial port first".data
      invoked := false, flash_lines := [] }
  else if ¬ e.confirmed then
    { outcome := FlashOutcome.notStarted, invoked := false, flash_lines := [] }
  else flash_firmware_worker e

/-! ### General lemmas about the string models -/

theorem trimLead_trimLead (l : Chars) : trimLead (trimLead l) = trimLead l := by
  induction l with
  | nil => rfl
  | cons c t ih =>
    unfold trimLead at *
    by_cases h : isPyWs c = true
    · rw [List.dropWhile_cons_of_pos h]
      exact ih
    · rw [List.dropWhile_cons_of_neg h, List.dropWhile_cons_of_neg h]

theorem trimLead_head_not_ws {l : Chars} {c : Char} (h : (trimLead l).head? = some c) :
    isPyWs c = false := by
  induction l with
  | nil => simp [trimLead] at h
  | cons x t ih =>
    unfold trimLead at *
    by_cases hx : isPyWs x = true
    · rw [List.dropWhile_cons_of_pos hx] at h
      exact ih h
    · rw [List.dropWhile_cons_of_neg hx] at h
      have hxc : x = c := by simpa using h
      subst hxc
      simpa using hx

theorem trimLead_of_head_not_ws {l : Chars} {c : Char} (h : l.head? = some c)
    (hc : isPyWs c = false) : trimLead l = l := by
  cases l with
  | nil => rfl
  | cons x t =>
    simp at h
    subst h
    unfold trimLead
    rw [List.dropWhile_cons_of_neg (by simp [hc])]

theorem trimLead_isSuffix (l : Chars) : (trimLead l).IsSuffix l :=
  List.dropWhile_suffix _

theorem trimTrail_isPrefix (l : Chars) : (trimTrail l).IsPrefix l := by
  unfold trimTrail
  obtain ⟨t, ht⟩ := trimLead_isSuffix l.reverse
  refine ⟨t.reverse, ?_⟩
  rw [← List.reverse_append, ht, List.reverse_reverse]

theorem mem_trimLead_of_mem {l : Chars} {c : Char} (h : c ∈ l) (hc : isPyWs c = false) :
    c ∈ trimLead l := by
  induction l with
  | nil => cases h
  | cons x t ih =>
    unfold trimLead at *
    by_cases hx : isPyWs x = true
    · rw [List.dropWhile_cons_of_pos hx]
      rcases List.mem_cons.mp h with rfl | hm
      · rw [hc] at hx
        cases hx
      · exact ih hm
    · rw [List.dropWhile_cons_of_neg hx]
      exact h

theorem mem_of_mem_pyStrip {l : Chars} {c : Char} (h : c ∈ pyStrip l) : c ∈ l := by
  unfold pyStrip trimTrail at h
  rw [List.mem_reverse] at h
  have h2 := (trimLead_isSuffix _).subset h
  rw [List.mem_reverse] at h2
  exact (trimLead_isSuffix _).subset h2

theorem mem_pyStrip_of_mem {l : Chars} {c : Char} (h : c ∈ l) (hc : isPyWs c = false) :
    c ∈ pyStrip l := by
  unfold pyStrip trimTrail
  rw [List.mem_reverse]
  refine mem_trimLead_of_mem ?_ hc
  rw [List.mem_reverse]
  exact mem_trimLead_of_mem h hc

theorem trimTrail_trimTrail (l : Chars) : trimTrail (trimTrail l) = trimTrail l := by
  unfold trimTrail
  rw [List.reverse_reverse, trimLead_trimLead]

theorem trimLead_trimTrail {u : Chars} (hu : trimLead u = u) :
    trimLead (trimTrail u) = trimTrail u := by
  cases htt : trimTrail u with
  | nil => rfl
  | cons y ys =>
    have hpre := trimTrail_isPrefix u
    rw [htt] at hpre
    obtain ⟨t, ht⟩ := hpre
    have hhead : u.head? = some y := by
      rw [← ht]
      rfl
    have hy : isPyWs y = false := trimLead_head_not_ws (by rw [hu]; exact hhead)
    exact trimLead_of_head_not_ws (by simp) hy

theorem pyStrip_idem (l : Chars) : pyStrip (pyStrip l) = pyStrip l := by
  show trimTrail (trimLead (trimTrail (trimLead l))) = trimTrail (trimLead l)
  rw [trimLead_trimTrail (trimLead_trimLead l), trimTrail_trimTrail]

theorem pyStrip_cons_ws {l : Chars} {c : Char} (hc : isPyWs c = true) :
    pyStrip (c :: l) = pyStrip l := by
  show trimTrail (trimLead (c :: l)) = trimTrail (trimLead l)
  unfold trimLead
  rw [List.dropWhile_cons_of_pos hc]

theorem getLast?_trimLead {l : Chars} {ch : Char} (h : l.getLast? = some ch)
    (hc : isPyWs ch = false) : (trimLead l).getLast? = some ch := by
  induction l with
  | nil => cases h
  | cons x t ih =>
    unfold trimLead at *
    by_cases hx : isPyWs x = true
    · rw [List.dropWhile_cons_of_pos hx]
      cases t with
      | nil =>
        simp at h
        subst h
        rw [hc] at hx
        cases hx
      | cons z zs =>
        rw [List.getLast?_cons_cons] at h
        exact ih h
    · rw [List.dropWhile_cons_of_neg hx]
      exact h

theorem getLast?_pyStrip {l : Chars} {ch : Char} (h : l.getLast? = some ch)
    (hc : isPyWs ch = false) : (pyStrip l).getLast? = some ch := by
  show (trimTrail (trimLead l)).getLast? = some ch
  have h1 : (trimLead l).getLast? = some ch := getLast?_trimLead h hc
  unfold trimTrail
  rw [List.getLast?_reverse]
  rw [trimLead_of_head_not_ws (by rw [List.head?_reverse]; exact h1) hc]
  rw [List.head?_reverse]
  exact h1

theorem containsSub_iff {hay pat : Chars} :
    containsSub hay pat = true ↔ ∃ a b, hay = a ++ pat ++ b := by
  induction hay with
  | nil =>
    unfold containsSub
    simp only [Bool.or_false]
    rw [List.isPrefixOf_iff_prefix]
    constructor
    · intro h
      rcases h with ⟨t, ht⟩
      refine ⟨[], t, ?_⟩
      simp [← ht]
    · rintro ⟨a, b, heq⟩
      have : a = [] ∧ pat = [] ∧ b = [] := by
        rcases List.append_eq_nil.mp heq.symm with ⟨h1, h2⟩
        rcases List.append_eq_nil.mp h1 with ⟨h3, h4⟩
        exact ⟨h3, h4, h2⟩
      rcases this with ⟨rfl, rfl, rfl⟩
      exact ⟨[], rfl⟩
  | cons c t ih =>
    rw [show containsSub (c :: t) pat =
        (pat.isPrefixOf (c :: t) || containsSub t pat) from rfl]
    rw [Bool.or_eq_true, ih, List.isPrefixOf_iff_prefix]
    constructor
    · rintro (⟨rest, hr⟩ | ⟨a, b, rfl⟩)
      · exact ⟨[], rest, by simp [← hr]⟩
      · exact ⟨c :: a, b, by simp⟩
    · rintro ⟨a, b, heq⟩
      cases a with
      | nil =>
        left
        exact ⟨b, by simpa using heq.symm⟩
      | cons x xs =>
        right
        simp only [List.cons_append, List.cons.injEq] at heq
        exact ⟨xs, b, heq.2⟩

theorem splitNl_cons_ne {c : Char} {cs : Chars} (hc : ¬ c = Char.ofNat 10) :
    splitNl (c :: cs) =
      match splitNl cs with
      | [] => [[c]]
      | h :: t => (c :: h) :: t := by
  simp only [splitNl]
  rw [if_neg hc]

theorem splitNl_ne_nil (l : Chars) : splitNl l ≠ [] := by
  induction l with
  | nil => simp [splitNl]
  | cons c t ih =>
    by_cases h : c = Char.ofNat 10
    · simp only [splitNl]
      rw [if_pos h]
      simp
    · rw [splitNl_cons_ne h]
      rcases hs : splitNl t with _ | ⟨x, xs⟩ <;> simp

theorem splitNl_no_nl {l : Chars} (h : Char.ofNat 10 ∉ l) : splitNl l = [l] := by
  induction l with
  | nil => rfl
  | cons c t ih =>
    have hc : ¬ c = Char.ofNat 10 := fun hh => h (hh ▸ List.mem_cons_self c t)
    rw [splitNl_cons_ne hc, ih (fun hm => h (List.mem_cons_of_mem c hm))]

theorem splitNl_append_nl {l rest : Chars} (h : Char.ofNat 10 ∉ l) :
    splitNl (l ++ Char.ofNat 10 :: rest) = l :: splitNl rest := by
  induction l with
  | nil =>
    show splitNl (Char.ofNat 10 :: rest) = [] :: splitNl rest
    simp [splitNl]
  | cons c t ih =>
    have hc : ¬ c = Char.ofNat 10 := fun hh => h (hh ▸ List.mem_cons_self c t)
    show splitNl (c :: (t ++ Char.ofNat 10 :: rest)) = (c :: t) :: splitNl rest
    rw [splitNl_cons_ne hc, ih (fun hm => h (List.mem_cons_of_mem c hm))]

theorem splitNl_joinNl {ls : List Chars} (hne : ls ≠ [])
    (h : ∀ l ∈ ls, Char.ofNat 10 ∉ l) : splitNl (joinNl ls) = ls := by
  induction ls with
  | nil => cases hne rfl
  | cons l rest ih =>
    cases rest with
    | nil =>
      show splitNl (joinNl [l]) = [l]
      rw [show joinNl [l] = l from rfl]
      exact splitNl_no_nl (h l (List.mem_cons_self _ _))
    | cons l2 rest2 =>
      rw [show joinNl (l :: l2 :: rest2) = l ++ Char.ofNat 10 :: joinNl (l2 :: rest2) from rfl]
      rw [splitNl_append_nl (h l (List.mem_cons_self _ _))]
      rw [ih (by simp) (fun x hx => h x (List.mem_cons_of_mem l hx))]

theorem mem_splitNl_no_nl {x : Chars} {l : Chars} (h : l ∈ splitNl x) :
    Char.ofNat 10 ∉ l := by
  induction x generalizing l with
  | nil =>
    simp [splitNl] at h
    subst h
    simp
  | cons c t ih =>
    by_cases hc : c = Char.ofNat 10
    · simp only [splitNl] at h
      rw [if_pos hc] at h
      rcases List.mem_cons.mp h with rfl | hm
      · simp
      · exact ih hm
    · rw [splitNl_cons_ne hc] at h
      rcases hs : splitNl t with _ | ⟨y, ys⟩
      · exact absurd hs (splitNl_ne_nil t)
      · rw [hs] at h
        dsimp only at h
        rcases List.mem_cons.mp h with rfl | hm
        · intro hmem
          rcases List.mem_cons.mp hmem with rfl | hm2
          · exact hc rfl
          · exact ih (hs ▸ List.mem_cons_self y ys) hm2
        · exact ih (hs ▸ List.mem_cons_of_mem y hm)

theorem ansiStrip_nil : ansiStrip [] = [] := rfl

theorem ansiStrip_cons_ne {c : Char} {t : Chars} (hc : ¬ c = escChar) :
    ansiStrip (c :: t) = c :: ansiStrip t := by
  show ansiStripFuel (c :: t).length (c :: t) = c :: ansiStripFuel t.length t
  rw [List.length_cons]
  simp only [ansiStripFuel]
  rw [if_neg hc]

theorem ansiStrip_no_esc {l : Chars} (h : escChar ∉ l) : ansiStrip l = l := by
  induction l with
  | nil => exact ansiStrip_nil
  | cons c t ih =>
    have hc : ¬ c = escChar := fun hh => h (hh ▸ List.mem_cons_self c t)
    rw [ansiStrip_cons_ne hc, ih (fun hm => h (List.mem_cons_of_mem c hm))]

theorem keepLine_idem {l t : Chars} (h : keepLine l = some t) : keepLine t = some t := by
  unfold keepLine at *
  by_cases h1 : pyStrip l = []
  · rw [if_pos h1] at h
    cases h
  · rw [if_neg h1] at h
    by_cases h2 : skipPatterns.any (fun p => containsSub (pyStrip l) p) = true
    · rw [if_pos h2] at h
      cases h
    · rw [if_neg h2] at h
      by_cases h3 : pyStrip l = ['>']
      · rw [if_pos h3] at h
        cases h
      · rw [if_neg h3] at h
        injection h with h
        subst h
        simp only [pyStrip_idem]
        rw [if_neg h1, if_neg h2, if_neg h3]

theorem filterMap_eq_self {α : Type} {f : α → Option α} {ls : List α}
    (h : ∀ x ∈ ls, f x = some x) : ls.filterMap f = ls := by
  induction ls with
  | nil => rfl
  | cons x t ih =>
    rw [List.filterMap_cons, h x (List.mem_cons_self _ _)]
    rw [ih (fun y hy => h y (List.mem_cons_of_mem x hy))]

theorem keepLine_some_eq {l t : Chars} (h : keepLine l = some t) : t = pyStrip l := by
  unfold keepLine at h
  by_cases h1 : pyStrip l = []
  · rw [if_pos h1] at h
    cases h
  · rw [if_neg h1] at h
    by_cases h2 : skipPatterns.any (fun p => containsSub (pyStrip l) p) = true
    · rw [if_pos h2] at h
      cases h
    · rw [if_neg h2] at h
      by_cases h3 : pyStrip l = ['>']
      · rw [if_pos h3] at h
        cases h
      · rw [if_neg h3] at h
        injection h with h
        exact h.symm

theorem keepLine_no_nl {x : Chars} {t : Chars}
    (h : t ∈ (splitNl (ansiStrip x)).filterMap keepLine) : Char.ofNat 10 ∉ t := by
  obtain ⟨l, hl, hkl⟩ := List.mem_filterMap.mp h
  intro h10
  exact (mem_splitNl_no_nl hl) (mem_of_mem_pyStrip ((keepLine_some_eq hkl) ▸ h10))

/-- The discard rule of the spec: a line is dropped when, after
stripping, it is empty, contains a denylisted internal log prefix, or is
just the prompt marker. -/
def discardSpec (l : Chars) : Prop :=
  pyStrip l = [] ∨ (∃ p ∈ skipPatterns, containsSub (pyStrip l) p = true) ∨ pyStrip l = ['>']

theorem keepLine_none_iff {l : Chars} : keepLine l = none ↔ discardSpec l := by
  unfold keepLine discardSpec
  by_cases h1 : pyStrip l = []
  · rw [if_pos h1]
    simp [h1]
  · rw [if_neg h1]
    by_cases h2 : skipPatterns.any (fun p => containsSub (pyStrip l) p) = true
    · rw [if_pos h2]
      rw [List.any_eq_true] at h2
      simp only [true_iff]
      exact Or.inr (Or.inl h2)
    · rw [if_neg h2]
      by_cases h3 : pyStrip l = ['>']
      · rw [if_pos h3]
        simp [h3]
      · rw [if_neg h3]
        constructor
        · intro h
          exact absurd h (Option.some_ne_none _)
        · rintro (h | h | h)
          · exact absurd h h1
          · exact absurd (List.any_eq_true.mpr h) h2
          · exact absurd h h3

theorem keepLine_of_not_discard {l : Chars} (h : ¬ discardSpec l) :
    keepLine l = some (pyStrip l) := by
  unfold discardSpec at h
  push_neg at h
  obtain ⟨h1, h2, h3⟩ := h
  have h2b : ¬ skipPatterns.any (fun p => containsSub (pyStrip l) p) = true := by
    rw [List.any_eq_true]
    rintro ⟨p, hp, hc⟩
    exact (h2 p hp) hc
  unfold keepLine
  rw [if_neg h1, if_neg h2b, if_neg h3]

instance discardSpec.decidable (l : Chars) : Decidable (discardSpec l) := by
  unfold discardSpec
  exact inferInstance

/-- C6 counterexample: on the input `ESC ESC [ m A`, one cleaning pass
removes the CSI sequence `ESC [ m` and thereby splices together the new
Fe escape sequence `ESC A`, which survives in the output; a second pass
removes it and leaves nothing, so `clean` is neither a complete ANSI
remover nor idempotent on this non-empty output. -/
theorem clean_response_not_idempotent_cex :
    clean_response (escChar :: escChar :: '[' :: 'm' :: 'A' :: []) =
      some (escChar :: 'A' :: []) ∧
    clean_response (escChar :: 'A' :: []) = none ∧
    matchAnsi ('A' :: []) = some [] := by
  refine ⟨by decide, by decide, by decide⟩

/-- C6 amended: `clean` removes the ANSI sequences found in one
left-to-right scan, and it is idempotent on every input whose cleaned
output no longer contains the escape character: if `clean x = some s` and
`ESC ∉ s` then `clean s = some s`. -/
theorem clean_response_idempotent_amended :
    ∀ x s : Chars, clean_response x = some s → escChar ∉ s →
      clean_response s = some s := by
  intro x s hx hesc
  simp only [clean_response] at hx
  by_cases hemp : (splitNl (ansiStrip x)).filterMap keepLine = []
  · rw [if_pos hemp] at hx
    cases hx
  · rw [if_neg hemp] at hx
    injection hx with hx
    subst hx
    simp only [clean_response]
    rw [ansiStrip_no_esc hesc]
    rw [splitNl_joinNl hemp (fun t ht => keepLine_no_nl ht)]
    rw [filterMap_eq_self (fun t ht => by
      obtain ⟨l, _, hkl⟩ := List.mem_filterMap.mp ht
      exact keepLine_idem hkl)]
    rw [if_neg hemp]

/-- Witness for `clean_response_idempotent_amended` at the concrete
input `hello`. -/
theorem clean_response_idempotent_amended_witness :
    clean_response "hello".data = some "hello".data :=
  clean_response_idempotent_amended "hello".data "hello".data (by decide) (by decide)

/-- C7: `clean` returns nothing exactly when every line of the
ANSI-stripped input is discarded by the spec's rules (blank after
stripping, denylisted internal log prefix, or prompt-only), and every
line not discarded by those rules is retained, stripped, among the
output lines. -/
theorem clean_response_discard_rules :
    ∀ x : Chars,
      (clean_response x = none ↔ ∀ l ∈ splitNl (ansiStrip x), discardSpec l) ∧
      (∀ s, clean_response x = some s → ∀ l ∈ splitNl (ansiStrip x),
        ¬ discardSpec l → pyStrip l ∈ splitNl s) := by
  intro x
  have hiff : ((splitNl (ansiStrip x)).filterMap keepLine = []) ↔
      (∀ l ∈ splitNl (ansiStrip x), discardSpec l) := by
    rw [List.filterMap_eq_nil_iff]
    exact ⟨fun h l hl => keepLine_none_iff.mp (h l hl),
      fun h l hl => keepLine_none_iff.mpr (h l hl)⟩
  constructor
  · by_cases hemp : (splitNl (ansiStrip x)).filterMap keepLine = []
    · rw [show clean_response x = none from by unfold clean_response; rw [if_pos hemp]]
      exact iff_of_true rfl (hiff.mp hemp)
    · refine iff_of_false ?_ (fun h => hemp (hiff.mpr h))
      simp only [clean_response]
      rw [if_neg hemp]
      exact Option.some_ne_none _
  · intro s hs l hl hnd
    simp only [clean_response] at hs
    by_cases hemp : (splitNl (ansiStrip x)).filterMap keepLine = []
    · rw [if_pos hemp] at hs
      cases hs
    · rw [if_neg hemp] at hs
      injection hs with hs
      subst hs
      rw [splitNl_joinNl hemp (fun t ht => keepLine_no_nl ht)]
      exact List.mem_filterMap.mpr ⟨l, hl, keepLine_of_not_discard hnd⟩

/-- Witness for `clean_response_discard_rules` at a concrete mixed
input: the denylisted boot line and the prompt are dropped, the payload
line is retained. -/
theorem clean_response_discard_rules_witness :
    clean_response "I (123) boot".data = none ∧
    pyStrip " hello ".data ∈ splitNl "hello".data :=
  ⟨(clean_response_discard_rules "I (123) boot".data).1.mpr (by decide),
   (clean_response_discard_rules " hello ".data).2 "hello".data (by decide)
     " hello ".data (by decide) (by decide)⟩

/-! ### Shape lemmas: each parser step writes only its own fields -/

theorem stepThrottle_shape (r : Chars) (c : Config) :
    ∃ b, stepThrottle r c = { c with invert_throttle := b } := by
  unfold stepThrottle
  split
  · exact ⟨true, rfl⟩
  · split
    · exact ⟨false, rfl⟩
    · exact ⟨c.invert_throttle, rfl⟩

theorem stepLevel_shape (r : Chars) (c : Config) :
    ∃ b, stepLevel r c = { c with level_assistant := b } := by
  unfold stepLevel
  split
  · exact ⟨true, rfl⟩
  · split
    · exact ⟨false, rfl⟩
    · exact ⟨c.level_assistant, rfl⟩

theorem stepSpeed_shape (r : Chars) (c : Config) :
    ∃ b, stepSpeed r c = { c with speed_unit_mph := b } := by
  unfold stepSpeed
  split
  · exact ⟨_, rfl⟩
  · exact ⟨c.speed_unit_mph, rfl⟩

theorem stepKp_shape (r : Chars) (c : Config) :
    ∃ v, stepKp r c = { c with pid_kp := v } := by
  unfold stepKp
  split
  · split
    · exact ⟨_, rfl⟩
    · exact ⟨c.pid_kp, rfl⟩
  · exact ⟨c.pid_kp, rfl⟩

theorem stepKi_shape (r : Chars) (c : Config) :
    ∃ v, stepKi r c = { c with pid_ki := v } := by
  unfold stepKi
  split
  · split
    · exact ⟨_, rfl⟩
    · exact ⟨c.pid_ki, rfl⟩
  · exact ⟨c.pid_ki, rfl⟩

theorem stepKd_shape (r : Chars) (c : Config) :
    ∃ v, stepKd r c = { c with pid_kd := v } := by
  unfold stepKd
  split
  · split
    · exact ⟨_, rfl⟩
    · exact ⟨c.pid_kd, rfl⟩
  · exact ⟨c.pid_kd, rfl⟩

theorem stepOutMax_shape (r : Chars) (c : Config) :
    ∃ v, stepOutMax r c = { c with pid_output_max := v } := by
  unfold stepOutMax
  split
  · split
    · exact ⟨_, rfl⟩
    · exact ⟨c.pid_output_max, rfl⟩
  · exact ⟨c.pid_output_max, rfl⟩

theorem pidBlockLine_shape (c : Config) (l : Chars) :
    ∃ v1 v2 v3 v4, pidBlockLine c l =
      { c with pid_kp := v1, pid_ki := v2, pid_kd := v3, pid_output_max := v4 } := by
  unfold pidBlockLine
  split
  · split
    · exact ⟨_, _, _, _, rfl⟩
    · exact ⟨c.pid_kp, c.pid_ki, c.pid_kd, c.pid_output_max, rfl⟩
  · split
    · split
      · exact ⟨_, _, _, _, rfl⟩
      · exact ⟨c.pid_kp, c.pid_ki, c.pid_kd, c.pid_output_max, rfl⟩
    · split
      · split
        · exact ⟨_, _, _, _, rfl⟩
        · exact ⟨c.pid_kp, c.pid_ki, c.pid_kd, c.pid_output_max, rfl⟩
      · split
        · split
          · exact ⟨_, _, _, _, rfl⟩
          · exact ⟨c.pid_kp, c.pid_ki, c.pid_kd, c.pid_output_max, rfl⟩
        · exact ⟨c.pid_kp, c.pid_ki, c.pid_kd, c.pid_output_max, rfl⟩

theorem pidBlockFold_shape (ls : List Chars) (c : Config) :
    ∃ v1 v2 v3 v4, ls.foldl pidBlockLine c =
      { c with pid_kp := v1, pid_ki := v2, pid_kd := v3, pid_output_max := v4 } := by
  induction ls generalizing c with
  | nil => exact ⟨c.pid_kp, c.pid_ki, c.pid_kd, c.pid_output_max, rfl⟩
  | cons l t ih =>
    rw [List.foldl_cons]
    obtain ⟨v1, v2, v3, v4, h1⟩ := pidBlockLine_shape c l
    obtain ⟨w1, w2, w3, w4, h2⟩ := ih (pidBlockLine c l)
    rw [h2, h1]
    exact ⟨w1, w2, w3, w4, rfl⟩

theorem stepPidBlock_shape (r : Chars) (c : Config) :
    ∃ v1 v2 v3 v4, stepPidBlock r c =
      { c with pid_kp := v1, pid_ki := v2, pid_kd := v3, pid_output_max := v4 } := by
  unfold stepPidBlock
  split
  · exact pidBlockFold_shape _ c
  · exact ⟨c.pid_kp, c.pid_ki, c.pid_kd, c.pid_output_max, rfl⟩

theorem stepMotorPulley_shape (r : Chars) (c : Config) :
    ∃ n, stepMotorPulley r c = { c with motor_pulley := n } := by
  unfold stepMotorPulley
  split
  · split
    · exact ⟨_, rfl⟩
    · exact ⟨c.motor_pulley, rfl⟩
  · exact ⟨c.motor_pulley, rfl⟩

theorem stepWheelPulley_shape (r : Chars) (c : Config) :
    ∃ n, stepWheelPulley r c = { c with wheel_pulley := n } := by
  unfold stepWheelPulley
  split
  · split
    · exact ⟨_, rfl⟩
    · exact ⟨c.wheel_pulley, rfl⟩
  · exact ⟨c.wheel_pulley, rfl⟩

theorem stepWheelDia_shape (r : Chars) (c : Config) :
    ∃ n, stepWheelDia r c = { c with wheel_diameter_mm := n } := by
  unfold stepWheelDia
  split
  · split
    · exact ⟨_, rfl⟩
    · exact ⟨c.wheel_diameter_mm, rfl⟩
  · exact ⟨c.wheel_diameter_mm, rfl⟩

theorem stepMotorPoles_shape (r : Chars) (c : Config) :
    ∃ n, stepMotorPoles r c = { c with motor_poles := n } := by
  unfold stepMotorPoles
  split
  · split
    · exact ⟨_, rfl⟩
    · exact ⟨c.motor_poles, rfl⟩
  · exact ⟨c.motor_poles, rfl⟩

theorem stepFirmware_shape (r : Chars) (c : Config) :
    ∃ s, stepFirmware r c = { c with firmware_version := s } := by
  unfold stepFirmware
  split
  · exact ⟨_, rfl⟩
  · exact ⟨c.firmware_version, rfl⟩

theorem applyDispUpd_pid_kp (c : Config) (u : DispUpd) :
    (applyDispUpd c u).pid_kp = c.pid_kp := by
  cases u <;> rfl

theorem applyDispUpd_pid_ki (c : Config) (u : DispUpd) :
    (applyDispUpd c u).pid_ki = c.pid_ki := by
  cases u <;> rfl

theorem applyDispUpd_pid_kd (c : Config) (u : DispUpd) :
    (applyDispUpd c u).pid_kd = c.pid_kd := by
  cases u <;> rfl

theorem applyDispUpd_pid_output_max (c : Config) (u : DispUpd) :
    (applyDispUpd c u).pid_output_max = c.pid_output_max := by
  cases u <;> rfl

theorem displayFold_pid_kp (ls : List Chars) (c : Config) :
    (ls.foldl displayLineUpd c).pid_kp = c.pid_kp := by
  induction ls generalizing c with
  | nil => rfl
  | cons l t ih => rw [List.foldl_cons, ih]; exact applyDispUpd_pid_kp c _

theorem displayFold_pid_ki (ls : List Chars) (c : Config) :
    (ls.foldl displayLineUpd c).pid_ki = c.pid_ki := by
  induction ls generalizing c with
  | nil => rfl
  | cons l t ih => rw [List.foldl_cons, ih]; exact applyDispUpd_pid_ki c _

theorem displayFold_pid_kd (ls : List Chars) (c : Config) :
    (ls.foldl displayLineUpd c).pid_kd = c.pid_kd := by
  induction ls generalizing c with
  | nil => rfl
  | cons l t ih => rw [List.foldl_cons, ih]; exact applyDispUpd_pid_kd c _

theorem displayFold_pid_output_max (ls : List Chars) (c : Config) :
    (ls.foldl displayLineUpd c).pid_output_max = c.pid_output_max := by
  induction ls generalizing c with
  | nil => rfl
  | cons l t ih => rw [List.foldl_cons, ih]; exact applyDispUpd_pid_output_max c _

theorem stepDisplay_pid_kp (r : Chars) (c : Config) :
    (stepDisplay r c).pid_kp = c.pid_kp := by
  unfold stepDisplay parse_config_display
  repeat' split
  all_goals first | rfl | exact displayFold_pid_kp _ c

theorem stepDisplay_pid_ki (r : Chars) (c : Config) :
    (stepDisplay r c).pid_ki = c.pid_ki := by
  unfold stepDisplay parse_config_display
  repeat' split
  all_goals first | rfl | exact displayFold_pid_ki _ c

theorem stepDisplay_pid_kd (r : Chars) (c : Config) :
    (stepDisplay r c).pid_kd = c.pid_kd := by
  unfold stepDisplay parse_config_display
  repeat' split
  all_goals first | rfl | exact displayFold_pid_kd _ c

theorem stepDisplay_pid_output_max (r : Chars) (c : Config) :
    (stepDisplay r c).pid_output_max = c.pid_output_max := by
  unfold stepDisplay parse_config_display
  repeat' split
  all_goals first | rfl | exact displayFold_pid_output_max _ c

/-! ### Field-preservation lemmas derived from the shapes -/

theorem stepThrottle_pid_kp (r : Chars) (c : Config) :
    (stepThrottle r c).pid_kp = c.pid_kp := by
  obtain ⟨x0, h⟩ := stepThrottle_shape r c
  rw [h]

theorem stepThrottle_pid_ki (r : Chars) (c : Config) :
    (stepThrottle r c).pid_ki = c.pid_ki := by
  obtain ⟨x0, h⟩ := stepThrottle_shape r c
  rw [h]

theorem stepThrottle_pid_kd (r : Chars) (c : Config) :
    (stepThrottle r c).pid_kd = c.pid_kd := by
  obtain ⟨x0, h⟩ := stepThrottle_shape r c
  rw [h]

theorem stepThrottle_pid_output_max (r : Chars) (c : Config) :
    (stepThrottle r c).pid_output_max = c.pid_output_max := by
  obtain ⟨x0, h⟩ := stepThrottle_shape r c
  rw [h]

theorem stepThrottle_motor_pulley (r : Chars) (c : Config) :
    (stepThrottle r c).motor_pulley = c.motor_pulley := by
  obtain ⟨x0, h⟩ := stepThrottle_shape r c
  rw [h]

theorem stepThrottle_wheel_pulley (r : Chars) (c : Config) :
    (stepThrottle r c).wheel_pulley = c.wheel_pulley := by
  obtain ⟨x0, h⟩ := stepThrottle_shape r c
  rw [h]

theorem stepThrottle_wheel_diameter_mm (r : Chars) (c : Config) :
    (stepThrottle r c).wheel_diameter_mm = c.wheel_diameter_mm := by
  obtain ⟨x0, h⟩ := stepThrottle_shape r c
  rw [h]

theorem stepThrottle_motor_poles (r : Chars) (c : Config) :
    (stepThrottle r c).motor_poles = c.motor_poles := by
  obtain ⟨x0, h⟩ := stepThrottle_shape r c
  rw [h]

theorem stepLevel_pid_kp (r : Chars) (c : Config) :
    (stepLevel r c).pid_kp = c.pid_kp := by
  obtain ⟨x0, h⟩ := stepLevel_shape r c
  rw [h]

theorem stepLevel_pid_ki (r : Chars) (c : Config) :
    (stepLevel r c).pid_ki = c.pid_ki := by
  obtain ⟨x0, h⟩ := stepLevel_shape r c
  rw [h]

theorem stepLevel_pid_kd (r : Chars) (c : Config) :
    (stepLevel r c).pid_kd = c.pid_kd := by
  obtain ⟨x0, h⟩ := stepLevel_shape r c
  rw [h]

theorem stepLevel_pid_output_max (r : Chars) (c : Config) :
    (stepLevel r c).pid_output_max = c.pid_output_max := by
  obtain ⟨x0, h⟩ := stepLevel_shape r c
  rw [h]

theorem stepLevel_motor_pulley (r : Chars) (c : Config) :
    (stepLevel r c).motor_pulley = c.motor_pulley := by
  obtain ⟨x0, h⟩ := stepLevel_shape r c
  rw [h]

theorem stepLevel_wheel_pulley (r : Chars) (c : Config) :
    (stepLevel r c).wheel_pulley = c.wheel_pulley := by
  obtain ⟨x0, h⟩ := stepLevel_shape r c
  rw [h]

theorem stepLevel_wheel_diameter_mm (r : Chars) (c : Config) :
    (stepLevel r c).wheel_diameter_mm = c.wheel_diameter_mm := by
  obtain ⟨x0, h⟩ := stepLevel_shape r c
  rw [h]

theorem stepLevel_motor_poles (r : Chars) (c : Config) :
    (stepLevel r c).motor_poles = c.motor_poles := by
  obtain ⟨x0, h⟩ := stepLevel_shape r c
  rw [h]

theorem stepSpeed_pid_kp (r : Chars) (c : Config) :
    (stepSpeed r c).pid_kp = c.pid_kp := by
  obtain ⟨x0, h⟩ := stepSpeed_shape r c
  rw [h]

theorem stepSpeed_pid_ki (r : Chars) (c : Config) :
    (stepSpeed r c).pid_ki = c.pid_ki := by
  obtain ⟨x0, h⟩ := stepSpeed_shape r c
  rw [h]

theorem stepSpeed_pid_kd (r : Chars) (c : Config) :
    (stepSpeed r c).pid_kd = c.pid_kd := by
  obtain ⟨x0, h⟩ := stepSpeed_shape r c
  rw [h]

theorem stepSpeed_pid_output_max (r : Chars) (c : Config) :
    (stepSpeed r c).pid_output_max = c.pid_output_max := by
  obtain ⟨x0, h⟩ := stepSpeed_shape r c
  rw [h]

theorem stepSpeed_motor_pulley (r : Chars) (c : Config) :
    (stepSpeed r c).motor_pulley = c.motor_pulley := by
  obtain ⟨x0, h⟩ := stepSpeed_shape r c
  rw [h]

theorem stepSpeed_wheel_pulley (r : Chars) (c : Config) :
    (stepSpeed r c).wheel_pulley = c.wheel_pulley := by
  obtain ⟨x0, h⟩ := stepSpeed_shape r c
  rw [h]

theorem stepSpeed_wheel_diameter_mm (r : Chars) (c : Config) :
    (stepSpeed r c).wheel_diameter_mm = c.wheel_diameter_mm := by
  obtain ⟨x0, h⟩ := stepSpeed_shape r c
  rw [h]

theorem stepSpeed_motor_poles (r : Chars) (c : Config) :
    (stepSpeed r c).motor_poles = c.motor_poles := by
  obtain ⟨x0, h⟩ := stepSpeed_shape r c
  rw [h]

theorem stepKp_pid_ki (r : Chars) (c : Config) :
    (stepKp r c).pid_ki = c.pid_ki := by
  obtain ⟨x0, h⟩ := stepKp_shape r c
  rw [h]

theorem stepKp_pid_kd (r : Chars) (c : Config) :
    (stepKp r c).pid_kd = c.pid_kd := by
  obtain ⟨x0, h⟩ := stepKp_shape r c
  rw [h]

theorem stepKp_pid_output_max (r : Chars) (c : Config) :
    (stepKp r c).pid_output_max = c.pid_output_max := by
  obtain ⟨x0, h⟩ := stepKp_shape r c
  rw [h]

theorem stepKp_motor_pulley (r : Chars) (c : Config) :
    (stepKp r c).motor_pulley = c.motor_pulley := by
  obtain ⟨x0, h⟩ := stepKp_shape r c
  rw [h]

theorem stepKp_wheel_pulley (r : Chars) (c : Config) :
    (stepKp r c).wheel_pulley = c.wheel_pulley := by
  obtain ⟨x0, h⟩ := stepKp_shape r c
  rw [h]

theorem stepKp_wheel_diameter_mm (r : Chars) (c : Config) :
    (stepKp r c).wheel_diameter_mm = c.wheel_diameter_mm := by
  obtain ⟨x0, h⟩ := stepKp_shape r c
  rw [h]

theorem stepKp_motor_poles (r : Chars) (c : Config) :
    (stepKp r c).motor_poles = c.motor_poles := by
  obtain ⟨x0, h⟩ := stepKp_shape r c
  rw [h]

theorem stepKi_pid_kp (r : Chars) (c : Config) :
    (stepKi r c).pid_kp = c.pid_kp := by
  obtain ⟨x0, h⟩ := stepKi_shape r c
  rw [h]

theorem stepKi_pid_kd (r : Chars) (c : Config) :
    (stepKi r c).pid_kd = c.pid_kd := by
  obtain ⟨x0, h⟩ := stepKi_shape r c
  rw [h]

theorem stepKi_pid_output_max (r : Chars) (c : Config) :
    (stepKi r c).pid_output_max = c.pid_output_max := by
  obtain ⟨x0, h⟩ := stepKi_shape r c
  rw [h]

theorem stepKi_motor_pulley (r : Chars) (c : Config) :
    (stepKi r c).motor_pulley = c.motor_pulley := by
  obtain ⟨x0, h⟩ := stepKi_shape r c
  rw [h]

theorem stepKi_wheel_pulley (r : Chars) (c : Config) :
    (stepKi r c).wheel_pulley = c.wheel_pulley := by
  obtain ⟨x0, h⟩ := stepKi_shape r c
  rw [h]

theorem stepKi_wheel_diameter_mm (r : Chars) (c : Config) :
    (stepKi r c).wheel_diameter_mm = c.wheel_diameter_mm := by
  obtain ⟨x0, h⟩ := stepKi_shape r c
  rw [h]

theorem stepKi_motor_poles (r : Chars) (c : Config) :
    (stepKi r c).motor_poles = c.motor_poles := by
  obtain ⟨x0, h⟩ := stepKi_shape r c
  rw [h]

theorem stepKd_pid_kp (r : Chars) (c : Config) :
    (stepKd r c).pid_kp = c.pid_kp := by
  obtain ⟨x0, h⟩ := stepKd_shape r c
  rw [h]

theorem stepKd_pid_ki (r : Chars) (c : Config) :
    (stepKd r c).pid_ki = c.pid_ki := by
  obtain ⟨x0, h⟩ := stepKd_shape r c
  rw [h]

theorem stepKd_pid_output_max (r : Chars) (c : Config) :
    (stepKd r c).pid_output_max = c.pid_output_max := by
  obtain ⟨x0, h⟩ := stepKd_shape r c
  rw [h]

theorem stepKd_motor_pulley (r : Chars) (c : Config) :
    (stepKd r c).motor_pulley = c.motor_pulley := by
  obtain ⟨x0, h⟩ := stepKd_shape r c
  rw [h]

theorem stepKd_wheel_pulley (r : Chars) (c : Config) :
    (stepKd r c).wheel_pulley = c.wheel_pulley := by
  obtain ⟨x0, h⟩ := stepKd_shape r c
  rw [h]

theorem stepKd_wheel_diameter_mm (r : Chars) (c : Config) :
    (stepKd r c).wheel_diameter_mm = c.wheel_diameter_mm := by
  obtain ⟨x0, h⟩ := stepKd_shape r c
  rw [h]

theorem stepKd_motor_poles (r : Chars) (c : Config) :
    (stepKd r c).motor_poles = c.motor_poles := by
  obtain ⟨x0, h⟩ := stepKd_shape r c
  rw [h]

theorem stepOutMax_pid_kp (r : Chars) (c : Config) :
    (stepOutMax r c).pid_kp = c.pid_kp := by
  obtain ⟨x0, h⟩ := stepOutMax_shape r c
  rw [h]

theorem stepOutMax_pid_ki (r : Chars) (c : Config) :
    (stepOutMax r c).pid_ki = c.pid_ki := by
  obtain ⟨x0, h⟩ := stepOutMax_shape r c
  rw [h]

theorem stepOutMax_pid_kd (r : Chars) (c : Config) :
    (stepOutMax r c).pid_kd = c.pid_kd := by
  obtain ⟨x0, h⟩ := stepOutMax_shape r c
  rw [h]

theorem stepOutMax_motor_pulley (r : Chars) (c : Config) :
    (stepOutMax r c).motor_pulley = c.motor_pulley := by
  obtain ⟨x0, h⟩ := stepOutMax_shape r c
  rw [h]

theorem stepOutMax_wheel_pulley (r : Chars) (c : Config) :
    (stepOutMax r c).wheel_pulley = c.wheel_pulley := by
  obtain ⟨x0, h⟩ := stepOutMax_shape r c
  rw [h]

theorem stepOutMax_wheel_diameter_mm (r : Chars) (c : Config) :
    (stepOutMax r c).wheel_diameter_mm = c.wheel_diameter_mm := by
  obtain ⟨x0, h⟩ := stepOutMax_shape r c
  rw [h]

theorem stepOutMax_motor_poles (r : Chars) (c : Config) :
    (stepOutMax r c).motor_poles = c.motor_poles := by
  obtain ⟨x0, h⟩ := stepOutMax_shape r c
  rw [h]

theorem stepPidBlock_motor_pulley (r : Chars) (c : Config) :
    (stepPidBlock r c).motor_pulley = c.motor_pulley := by
  obtain ⟨x0, x1, x2, x3, h⟩ := stepPidBlock_shape r c
  rw [h]

theorem stepPidBlock_wheel_pulley (r : Chars) (c : Config) :
    (stepPidBlock r c).wheel_pulley = c.wheel_pulley := by
  obtain ⟨x0, x1, x2, x3, h⟩ := stepPidBlock_shape r c
  rw [h]

theorem stepPidBlock_wheel_diameter_mm (r : Chars) (c : Config) :
    (stepPidBlock r c).wheel_diameter_mm = c.wheel_diameter_mm := by
  obtain ⟨x0, x1, x2, x3, h⟩ := stepPidBlock_shape r c
  rw [h]

theorem stepPidBlock_motor_poles (r : Chars) (c : Config) :
    (stepPidBlock r c).motor_poles = c.motor_poles := by
  obtain ⟨x0, x1, x2, x3, h⟩ := stepPidBlock_shape r c
  rw [h]

theorem stepMotorPulley_pid_kp (r : Chars) (c : Config) :
    (stepMotorPulley r c).pid_kp = c.pid_kp := by
  obtain ⟨x0, h⟩ := stepMotorPulley_shape r c
  rw [h]

theorem stepMotorPulley_pid_ki (r : Chars) (c : Config) :
    (stepMotorPulley r c).pid_ki = c.pid_ki := by
  obtain ⟨x0, h⟩ := stepMotorPulley_shape r c
  rw [h]

theorem stepMotorPulley_pid_kd (r : Chars) (c : Config) :
    (stepMotorPulley r c).pid_kd = c.pid_kd := by
  obtain ⟨x0, h⟩ := stepMotorPulley_shape r c
  rw [h]

theorem stepMotorPulley_pid_output_max (r : Chars) (c : Config) :
    (stepMotorPulley r c).pid_output_max = c.pid_output_max := by
  obtain ⟨x0, h⟩ := stepMotorPulley_shape r c
  rw [h]

theorem stepMotorPulley_wheel_pulley (r : Chars) (c : Config) :
    (stepMotorPulley r c).wheel_pulley = c.wheel_pulley := by
  obtain ⟨x0, h⟩ := stepMotorPulley_shape r c
  rw [h]

theorem stepMotorPulley_wheel_diameter_mm (r : Chars) (c : Config) :
    (stepMotorPulley r c).wheel_diameter_mm = c.wheel_diameter_mm := by
  obtain ⟨x0, h⟩ := stepMotorPulley_shape r c
  rw [h]

theorem stepMotorPulley_motor_poles (r : Chars) (c : Config) :
    (stepMotorPulley r c).motor_poles = c.motor_poles := by
  obtain ⟨x0, h⟩ := stepMotorPulley_shape r c
  rw [h]

theorem stepWheelPulley_pid_kp (r : Chars) (c : Config) :
    (stepWheelPulley r c).pid_kp = c.pid_kp := by
  obtain ⟨x0, h⟩ := stepWheelPulley_shape r c
  rw [h]

theorem stepWheelPulley_pid_ki (r : Chars) (c : Config) :
    (stepWheelPulley r c).pid_ki = c.pid_ki := by
  obtain ⟨x0, h⟩ := stepWheelPulley_shape r c
  rw [h]

theorem stepWheelPulley_pid_kd (r : Chars) (c : Config) :
    (stepWheelPulley r c).pid_kd = c.pid_kd := by
  obtain ⟨x0, h⟩ := stepWheelPulley_shape r c
  rw [h]

theorem stepWheelPulley_pid_output_max (r : Chars) (c : Config) :
    (stepWheelPulley r c).pid_output_max = c.pid_output_max := by
  obtain ⟨x0, h⟩ := stepWheelPulley_shape r c
  rw [h]

theorem stepWheelPulley_motor_pulley (r : Chars) (c : Config) :
    (stepWheelPulley r c).motor_pulley = c.motor_pulley := by
  obtain ⟨x0, h⟩ := stepWheelPulley_shape r c
  rw [h]

theorem stepWheelPulley_wheel_diameter_mm (r : Chars) (c : Config) :
    (stepWheelPulley r c).wheel_diameter_mm = c.wheel_diameter_mm := by
  obtain ⟨x0, h⟩ := stepWheelPulley_shape r c
  rw [h]

theorem stepWheelPulley_motor_poles (r : Chars) (c : Config) :
    (stepWheelPulley r c).motor_poles = c.motor_poles := by
  obtain ⟨x0, h⟩ := stepWheelPulley_shape r c
  rw [h]

theorem stepWheelDia_pid_kp (r : Chars) (c : Config) :
    (stepWheelDia r c).pid_kp = c.pid_kp := by
  obtain ⟨x0, h⟩ := stepWheelDia_shape r c
  rw [h]

theorem stepWheelDia_pid_ki (r : Chars) (c : Config) :
    (stepWheelDia r c).pid_ki = c.pid_ki := by
  obtain ⟨x0, h⟩ := stepWheelDia_shape r c
  rw [h]

theorem stepWheelDia_pid_kd (r : Chars) (c : Config) :
    (stepWheelDia r c).pid_kd = c.pid_kd := by
  obtain ⟨x0, h⟩ := stepWheelDia_shape r c
  rw [h]

theorem stepWheelDia_pid_output_max (r : Chars) (c : Config) :
    (stepWheelDia r c).pid_output_max = c.pid_output_max := by
  obtain ⟨x0, h⟩ := stepWheelDia_shape r c
  rw [h]

theorem stepWheelDia_motor_pulley (r : Chars) (c : Config) :
    (stepWheelDia r c).motor_pulley = c.motor_pulley := by
  obtain ⟨x0, h⟩ := stepWheelDia_shape r c
  rw [h]

theorem stepWheelDia_wheel_pulley (r : Chars) (c : Config) :
    (stepWheelDia r c).wheel_pulley = c.wheel_pulley := by
  obtain ⟨x0, h⟩ := stepWheelDia_shape r c
  rw [h]

theorem stepWheelDia_motor_poles (r : Chars) (c : Config) :
    (stepWheelDia r c).motor_poles = c.motor_poles := by
  obtain ⟨x0, h⟩ := stepWheelDia_shape r c
  rw [h]

theorem stepMotorPoles_pid_kp (r : Chars) (c : Config) :
    (stepMotorPoles r c).pid_kp = c.pid_kp := by
  obtain ⟨x0, h⟩ := stepMotorPoles_shape r c
  rw [h]

theorem stepMotorPoles_pid_ki (r : Chars) (c : Config) :
    (stepMotorPoles r c).pid_ki = c.pid_ki := by
  obtain ⟨x0, h⟩ := stepMotorPoles_shape r c
  rw [h]

theorem stepMotorPoles_pid_kd (r : Chars) (c : Config) :
    (stepMotorPoles r c).pid_kd = c.pid_kd := by
  obtain ⟨x0, h⟩ := stepMotorPoles_shape r c
  rw [h]

theorem stepMotorPoles_pid_output_max (r : Chars) (c : Config) :
    (stepMotorPoles r c).pid_output_max = c.pid_output_max := by
  obtain ⟨x0, h⟩ := stepMotorPoles_shape r c
  rw [h]

theorem stepMotorPoles_motor_pulley (r : Chars) (c : Config) :
    (stepMotorPoles r c).motor_pulley = c.motor_pulley := by
  obtain ⟨x0, h⟩ := stepMotorPoles_shape r c
  rw [h]

theorem stepMotorPoles_wheel_pulley (r : Chars) (c : Config) :
    (stepMotorPoles r c).wheel_pulley = c.wheel_pulley := by
  obtain ⟨x0, h⟩ := stepMotorPoles_shape r c
  rw [h]

theorem stepMotorPoles_wheel_diameter_mm (r : Chars) (c : Config) :
    (stepMotorPoles r c).wheel_diameter_mm = c.wheel_diameter_mm := by
  obtain ⟨x0, h⟩ := stepMotorPoles_shape r c
  rw [h]

theorem stepFirmware_pid_kp (r : Chars) (c : Config) :
    (stepFirmware r c).pid_kp = c.pid_kp := by
  obtain ⟨x0, h⟩ := stepFirmware_shape r c
  rw [h]

theorem stepFirmware_pid_ki (r : Chars) (c : Config) :
    (stepFirmware r c).pid_ki = c.pid_ki := by
  obtain ⟨x0, h⟩ := stepFirmware_shape r c
  rw [h]

theorem stepFirmware_pid_kd (r : Chars) (c : Config) :
    (stepFirmware r c).pid_kd = c.pid_kd := by
  obtain ⟨x0, h⟩ := stepFirmware_shape r c
  rw [h]

theorem stepFirmware_pid_output_max (r : Chars) (c : Config) :
    (stepFirmware r c).pid_output_max = c.pid_output_max := by
  obtain ⟨x0, h⟩ := stepFirmware_shape r c
  rw [h]

theorem stepFirmware_motor_pulley (r : Chars) (c : Config) :
    (stepFirmware r c).motor_pulley = c.motor_pulley := by
  obtain ⟨x0, h⟩ := stepFirmware_shape r c
  rw [h]

theorem stepFirmware_wheel_pulley (r : Chars) (c : Config) :
    (stepFirmware r c).wheel_pulley = c.wheel_pulley := by
  obtain ⟨x0, h⟩ := stepFirmware_shape r c
  rw [h]

theorem stepFirmware_wheel_diameter_mm (r : Chars) (c : Config) :
    (stepFirmware r c).wheel_diameter_mm = c.wheel_diameter_mm := by
  obtain ⟨x0, h⟩ := stepFirmware_shape r c
  rw [h]

theorem stepFirmware_motor_poles (r : Chars) (c : Config) :
    (stepFirmware r c).motor_poles = c.motor_poles := by
  obtain ⟨x0, h⟩ := stepFirmware_shape r c
  rw [h]

/-! ### Trigger lemmas for the parser steps -/

theorem stepKp_eq_of {r : Chars} {v : PyF}
    (h1 : containsSub r "PID Kp set to:".data = true)
    (h2 : pyFloat (seg1 "PID Kp set to:".data r) = some v) (c : Config) :
    stepKp r c = { c with pid_kp := v } := by
  unfold stepKp
  rw [if_pos h1, h2]

theorem stepKp_fail {r : Chars}
    (h2 : pyFloat (seg1 "PID Kp set to:".data r) = none) (c : Config) :
    stepKp r c = c := by
  unfold stepKp
  by_cases h1 : containsSub r "PID Kp set to:".data = true
  · rw [if_pos h1, h2]
  · rw [if_neg h1]

theorem stepKi_fail {r : Chars}
    (h2 : pyFloat (seg1 "PID Ki set to:".data r) = none) (c : Config) :
    stepKi r c = c := by
  unfold stepKi
  by_cases h1 : containsSub r "PID Ki set to:".data = true
  · rw [if_pos h1, h2]
  · rw [if_neg h1]

theorem stepKd_fail {r : Chars}
    (h2 : pyFloat (seg1 "PID Kd set to:".data r) = none) (c : Config) :
    stepKd r c = c := by
  unfold stepKd
  by_cases h1 : containsSub r "PID Kd set to:".data = true
  · rw [if_pos h1, h2]
  · rw [if_neg h1]

theorem stepOutMax_fail {r : Chars}
    (h2 : pyFloat (seg1 "PID Output Max set to:".data r) = none) (c : Config) :
    stepOutMax r c = c := by
  unfold stepOutMax
  by_cases h1 : containsSub r "PID Output Max set to:".data = true
  · rw [if_pos h1, h2]
  · rw [if_neg h1]

theorem stepMotorPulley_fail {r : Chars}
    (h2 : pyInt (seg1 "Motor pulley teeth set to:".data r) = none) (c : Config) :
    stepMotorPulley r c = c := by
  unfold stepMotorPulley
  by_cases h1 : containsSub r "Motor pulley teeth set to:".data = true
  · rw [if_pos h1, h2]
  · rw [if_neg h1]

theorem stepWheelPulley_fail {r : Chars}
    (h2 : pyInt (seg1 "Wheel pulley teeth set to:".data r) = none) (c : Config) :
    stepWheelPulley r c = c := by
  unfold stepWheelPulley
  by_cases h1 : containsSub r "Wheel pulley teeth set to:".data = true
  · rw [if_pos h1, h2]
  · rw [if_neg h1]

theorem stepWheelDia_eq_of {r : Chars} {v : Int}
    (h1 : containsSub r "Wheel diameter set to:".data = true)
    (h2 : pyInt (seg0 "mm".data (seg1 "Wheel diameter set to:".data r)) = some v)
    (c : Config) : stepWheelDia r c = { c with wheel_diameter_mm := v } := by
  unfold stepWheelDia
  rw [if_pos h1, h2]

theorem stepWheelDia_fail {r : Chars}
    (h2 : pyInt (seg0 "mm".data (seg1 "Wheel diameter set to:".data r)) = none)
    (c : Config) : stepWheelDia r c = c := by
  unfold stepWheelDia
  by_cases h1 : containsSub r "Wheel diameter set to:".data = true
  · rw [if_pos h1, h2]
  · rw [if_neg h1]

theorem stepMotorPoles_fail {r : Chars}
    (h2 : pyInt (seg1 "Motor poles set to:".data r) = none) (c : Config) :
    stepMotorPoles r c = c := by
  unfold stepMotorPoles
  by_cases h1 : containsSub r "Motor poles set to:".data = true
  · rw [if_pos h1, h2]
  · rw [if_neg h1]

theorem stepPidBlock_not {r : Chars}
    (h : containsSub r "=== Level Assistant PID Parameters ===".data = false)
    (c : Config) : stepPidBlock r c = c := by
  unfold stepPidBlock
  rw [if_neg (by simp [h])]

theorem stepDisplay_not {r : Chars}
    (h1 : containsSub r "Current Configuration".data = false)
    (h2 : containsSub r "Configuration:".data = false)
    (h3 : displayKeywords.any (fun k => containsSub r k) = false) (c : Config) :
    stepDisplay r c = c := by
  unfold stepDisplay
  rw [if_neg (by simp [h1, h2]), if_neg (by simp [h3])]

theorem stepDisplay_fold {r : Chars} (c : Config)
    (h : (containsSub r "Current Configuration".data ||
      containsSub r "Configuration:".data ||
      displayKeywords.any (fun k => containsSub r k)) = true) :
    stepDisplay r c = (splitNl r).foldl displayLineUpd c := by
  unfold stepDisplay parse_config_display
  rcases Bool.or_eq_true_iff.mp h with h12 | h3
  · rw [if_pos (by
      rcases Bool.or_eq_true_iff.mp h12 with hx | hx <;> simp [hx])]
  · by_cases h12b : (containsSub r "Current Configuration".data ||
        containsSub r "Configuration:".data) = true
    · rw [if_pos (by
        rcases Bool.or_eq_true_iff.mp h12b with hx | hx <;> simp [hx])]
    · rw [if_neg (by
        intro hx
        rcases Bool.or_eq_true_iff.mp hx with hx | hx <;> simp [hx] at h12b), if_pos h3]

/-- C1: every numeric setter transmits a command if and only if the value
lies in its documented range (`[1,255]` for the integer setters; the PID
bounds for the float setters), and surfaces a validation error, without
transmitting, exactly on the out-of-range values. -/
theorem numeric_setters_range_gate :
    (∀ t : Int, ((∃ c, set_motor_pulley t = SetterAction.send c) ↔ 1 ≤ t ∧ t ≤ 255) ∧
      ((∃ m, set_motor_pulley t = SetterAction.reject m) ↔ ¬(1 ≤ t ∧ t ≤ 255))) ∧
    (∀ t : Int, ((∃ c, set_wheel_pulley t = SetterAction.send c) ↔ 1 ≤ t ∧ t ≤ 255) ∧
      ((∃ m, set_wheel_pulley t = SetterAction.reject m) ↔ ¬(1 ≤ t ∧ t ≤ 255))) ∧
    (∀ t : Int, ((∃ c, set_wheel_size t = SetterAction.send c) ↔ 1 ≤ t ∧ t ≤ 255) ∧
      ((∃ m, set_wheel_size t = SetterAction.reject m) ↔ ¬(1 ≤ t ∧ t ≤ 255))) ∧
    (∀ t : Int, ((∃ c, set_motor_poles t = SetterAction.send c) ↔ 1 ≤ t ∧ t ≤ 255) ∧
      ((∃ m, set_motor_poles t = SetterAction.reject m) ↔ ¬(1 ≤ t ∧ t ≤ 255))) ∧
    (∀ cfg : Config, ∀ v : ℚ,
      ((∃ c, (set_pid_kp cfg v).2 = SetterAction.send c) ↔ 0 ≤ v ∧ v ≤ 10) ∧
      ((∃ m, (set_pid_kp cfg v).2 = SetterAction.reject m) ↔ ¬(0 ≤ v ∧ v ≤ 10))) ∧
    (∀ cfg : Config, ∀ v : ℚ,
      ((∃ c, (set_pid_ki cfg v).2 = SetterAction.send c) ↔ 0 ≤ v ∧ v ≤ 2) ∧
      ((∃ m, (set_pid_ki cfg v).2 = SetterAction.reject m) ↔ ¬(0 ≤ v ∧ v ≤ 2))) ∧
    (∀ cfg : Config, ∀ v : ℚ,
      ((∃ c, (set_pid_kd cfg v).2 = SetterAction.send c) ↔ 0 ≤ v ∧ v ≤ 1) ∧
      ((∃ m, (set_pid_kd cfg v).2 = SetterAction.reject m) ↔ ¬(0 ≤ v ∧ v ≤ 1))) ∧
    (∀ cfg : Config, ∀ v : ℚ,
      ((∃ c, (set_pid_output_max cfg v).2 = SetterAction.send c) ↔ 10 ≤ v ∧ v ≤ 100) ∧
      ((∃ m, (set_pid_output_max cfg v).2 = SetterAction.reject m) ↔ ¬(10 ≤ v ∧ v ≤ 100))) := by
  refine ⟨fun t => ?_, fun t => ?_, fun t => ?_, fun t => ?_,
    fun cfg v => ?_, fun cfg v => ?_, fun cfg v => ?_, fun cfg v => ?_⟩ <;>
    [(by_cases h : t ≤ 0 ∨ t > 255);
     (by_cases h : t ≤ 0 ∨ t > 255);
     (by_cases h : t ≤ 0 ∨ t > 255);
     (by_cases h : t ≤ 0 ∨ t > 255);
     (by_cases h : v < 0 ∨ v > 10);
     (by_cases h : v < 0 ∨ v > 2);
     (by_cases h : v < 0 ∨ v > 1);
     (by_cases h : v < 10 ∨ v > 100)] <;>
    simp only [set_motor_pulley, set_wheel_pulley, set_wheel_size, set_motor_poles,
      set_pid_kp, set_pid_ki, set_pid_kd, set_pid_output_max, h, if_true, if_false,
      ite_true, ite_false] <;>
    constructor <;> simp <;>
    first
      | omega
      | (rintro h1 h2; rcases h with h | h <;> linarith)
      | (intro h1; rcases h with h | h <;> linarith)
      | (push_neg at h; exact h)

/-- C2: the update check strips the leading `v` from the latest tag,
short-circuits to an unknown outcome (attempting no comparison) when the
current version is `Unknown`, and otherwise reports an available update
exactly when the current version is strictly semantically below the
latest; in particular `1.2.0` against tag `v1.3.0` is update-available and
`1.3.0` against `v1.3.0` is up-to-date. -/
theorem check_online_updates_compare :
    check_online_updates "v1.3.0".data "1.2.0".data = UpdateOutcome.updateAvailable ∧
    check_online_updates "v1.3.0".data "1.3.0".data = UpdateOutcome.upToDate ∧
    (∀ tag, check_online_updates tag "Unknown".data = UpdateOutcome.unknownVersion) ∧
    lstripV "v1.3.0".data = "1.3.0".data ∧
    (∀ tag cur c l, cur ≠ "Unknown".data → parseVer cur = some c →
      parseVer (lstripV tag) = some l →
      (check_online_updates tag cur = UpdateOutcome.updateAvailable ↔ verLt c l = true)) := by
  refine ⟨by decide, by decide, fun tag => ?_, by decide, fun tag cur c l hcur hc hl => ?_⟩
  · unfold check_online_updates
    rw [if_pos rfl]
  · unfold check_online_updates
    rw [if_neg hcur, hc, hl]
    dsimp only
    split <;> rename_i hv <;> simp [hv]

/-- Witness for `check_online_updates_compare`: the general strict-order
clause applied at tag `v2.0` against current version `1.0`. -/
theorem check_online_updates_compare_witness :
    check_online_updates "v2.0".data "1.0".data = UpdateOutcome.updateAvailable :=
  (check_online_updates_compare.2.2.2.2 "v2.0".data "1.0".data [1, 0] [2, 0]
    (by decide) (by decide) (by decide)).mpr (by decide)

/-- C3: the confirmation line `PID Kp set to: 1.25` sets the mirror's
`pid_kp` to exactly 1.25 (whatever the previous mirror state), and
`log_message` emits the same line with the `[OK]` confirmation prefix. -/
theorem pid_kp_confirmation_line :
    ∀ cfg : Config,
      (parse_config_response cfg "PID Kp set to: 1.25".data).pid_kp = PyF.fin (5 / 4) ∧
      log_message "PID Kp set to: 1.25".data = some "[OK] PID Kp set to: 1.25\n".data := by
  intro cfg
  constructor
  · unfold parse_config_response
    rw [stepDisplay_pid_kp, stepFirmware_pid_kp, stepMotorPoles_pid_kp,
      stepWheelDia_pid_kp, stepWheelPulley_pid_kp, stepMotorPulley_pid_kp,
      stepPidBlock_not (by decide), stepOutMax_pid_kp, stepKd_pid_kp, stepKi_pid_kp,
      stepKp_eq_of (by decide)
        (show pyFloat (seg1 "PID Kp set to:".data "PID Kp set to: 1.25".data) =
          some (PyF.fin (5 / 4)) from by
            rw [show ((5 : ℚ) / 4) = mkRat 5 4 from by rw [Rat.mkRat_eq_div]; norm_num]
            decide)]
  · decide

/-- C4: the line `Wheel diameter set to: 110mm` sets the mirror's wheel
diameter to 110; the `mm` suffix is cut before the integer parse, so the
same payload without the suffix produces the same mirror value. -/
theorem wheel_diameter_mm_suffix :
    ∀ cfg : Config,
      (parse_config_response cfg "Wheel diameter set to: 110mm".data).wheel_diameter_mm =
        110 ∧
      (parse_config_response cfg "Wheel diameter set to: 110".data).wheel_diameter_mm =
        110 := by
  intro cfg
  constructor
  · unfold parse_config_response
    rw [stepDisplay_not (by decide) (by decide) (by decide),
      stepFirmware_wheel_diameter_mm, stepMotorPoles_wheel_diameter_mm,
      stepWheelDia_eq_of (by decide)
        (show pyInt (seg0 "mm".data
          (seg1 "Wheel diameter set to:".data "Wheel diameter set to: 110mm".data)) =
          some 110 from by decide)]
  · unfold parse_config_response
    rw [stepDisplay_not (by decide) (by decide) (by decide),
      stepFirmware_wheel_diameter_mm, stepMotorPoles_wheel_diameter_mm,
      stepWheelDia_eq_of (by decide)
        (show pyInt (seg0 "mm".data
          (seg1 "Wheel diameter set to:".data "Wheel diameter set to: 110".data)) =
          some 110 from by decide)]

/-! ### Character-level lemmas about the numeric parsers -/

theorem digitsUndAux_mem {c : Char} (hd : c.isDigit = false) (hu : ¬ c = '_') :
    ∀ (acc cnt : Nat) (ds : Chars), c ∈ ds → digitsUndAux acc cnt ds = none := by
  intro acc cnt ds
  induction acc, cnt, ds using digitsUndAux.induct with
  | case1 acc cnt =>
    intro hm
    cases hm
  | case2 acc cnt =>
    intro hm
    simp [digitsUndAux]
  | case3 acc cnt d2 r2 hdig ih =>
    intro hm
    simp [digitsUndAux, hdig]
    apply ih
    rcases List.mem_cons.mp hm with rfl | hm2
    · exact absurd rfl hu
    · rcases List.mem_cons.mp hm2 with rfl | hm3
      · rw [hdig] at hd
        cases hd
      · exact hm3
  | case4 acc cnt d2 r2 hdig =>
    intro hm
    simp [digitsUndAux, hdig]
  | case5 acc cnt head t hne hdig ih =>
    intro hm
    rw [digitsUndAux.eq_def]
    dsimp only
    rw [if_neg hne, if_pos hdig]
    apply ih
    rcases List.mem_cons.mp hm with rfl | hm2
    · rw [hdig] at hd
      cases hd
    · exact hm2
  | case6 acc cnt head t hne hdig =>
    intro hm
    rw [digitsUndAux.eq_def]
    dsimp only
    rw [if_neg hne, if_neg hdig]

theorem digitsUnd_mem {ds : Chars} {c : Char} (hm : c ∈ ds) (hd : c.isDigit = false)
    (hu : ¬ c = '_') : digitsUnd ds = none := by
  cases ds with
  | nil => cases hm
  | cons x r =>
    simp only [digitsUnd]
    by_cases hx : x.isDigit = true
    · rw [if_pos hx]
      apply digitsUndAux_mem hd hu
      rcases List.mem_cons.mp hm with rfl | hm2
      · rw [hx] at hd
        cases hd
      · exact hm2
    · rw [if_neg hx]

theorem pyInt_none_of_colon {v : Chars} (hm : ':' ∈ v) : pyInt v = none := by
  have hmem : ':' ∈ pyStrip v := mem_pyStrip_of_mem hm (by decide)
  unfold pyInt
  rcases hps : pyStrip v with _ | ⟨d, ds⟩
  · exact absurd (hps ▸ hmem) (List.not_mem_nil _)
  · rw [hps] at hmem
    dsimp only
    by_cases hp : d = '+'
    · rw [if_pos hp]
      have hds : ':' ∈ ds := by
        rcases List.mem_cons.mp hmem with heq | hm2
        · rw [hp] at heq
          cases heq
        · exact hm2
      rw [digitsUnd_mem hds (by decide) (by decide)]
      rfl
    · rw [if_neg hp]
      by_cases hn : d = '-'
      · rw [if_pos hn]
        have hds : ':' ∈ ds := by
          rcases List.mem_cons.mp hmem with heq | hm2
          · rw [hn] at heq
            cases heq
          · exact hm2
        rw [digitsUnd_mem hds (by decide) (by decide)]
        rfl
      · rw [if_neg hn]
        rw [digitsUnd_mem hmem (by decide) (by decide)]
        rfl

theorem pyInt_pyStrip (v : Chars) : pyInt (pyStrip v) = pyInt v := by
  unfold pyInt
  rw [pyStrip_idem]

/-! ### Position of the first colon in a line -/

theorem takeWhile_colon_append {a : Chars} (b : Chars) (h : ':' ∉ a) :
    (a ++ ':' :: b).takeWhile (fun ch => ch != ':') = a := by
  induction a with
  | nil => simp
  | cons x t ih =>
    have hx : ¬ x = ':' := fun he => h (he ▸ List.mem_cons_self x t)
    rw [List.cons_append, List.takeWhile_cons_of_pos (by simp [hx])]
    rw [ih (fun hm => h (List.mem_cons_of_mem x hm))]

theorem dropWhile_colon_append {a : Chars} (b : Chars) (h : ':' ∉ a) :
    (a ++ ':' :: b).dropWhile (fun ch => ch != ':') = ':' :: b := by
  induction a with
  | nil => simp
  | cons x t ih =>
    have hx : ¬ x = ':' := fun he => h (he ▸ List.mem_cons_self x t)
    rw [List.cons_append, List.dropWhile_cons_of_pos (by simp [hx])]
    exact ih (fun hm => h (List.mem_cons_of_mem x hm))

theorem first_colon_decomp {a : Chars} (h : ':' ∈ a) :
    ∃ a1 a2, a = a1 ++ ':' :: a2 ∧ ':' ∉ a1 := by
  induction a with
  | nil => cases h
  | cons x t ih =>
    by_cases hx : x = ':'
    · subst hx
      exact ⟨[], t, rfl, by simp⟩
    · rcases List.mem_cons.mp h with heq | hm
      · exact absurd heq.symm hx
      · obtain ⟨a1, a2, heq, hn1⟩ := ih hm
        refine ⟨x :: a1, a2, by rw [heq, List.cons_append], ?_⟩
        intro hmem
        rcases List.mem_cons.mp hmem with heq2 | hm2
        · exact hx heq2.symm
        · exact hn1 hm2

/-- For a line containing a `<label>:` pattern whose colon-free label text
ends in `o`, the display parser's key either also ends in `o` (the label's
colon is the line's first colon) or the extracted value still contains a
colon (the first colon lies before the label). -/
theorem display_key_or_value (resp P : Chars) (hP : ':' ∉ P)
    (hPo : P.getLast? = some 'o') (hc : containsSub resp (P ++ [':']) = true) :
    (displayKey resp).getLast? = some 'o' ∨ ':' ∈ displayValue resp := by
  rcases containsSub_iff.mp hc with ⟨a, b, hab⟩
  by_cases hca : ':' ∈ a
  · right
    obtain ⟨a1, a2, ha, ha1⟩ := first_colon_decomp hca
    have hre : resp = a1 ++ ':' :: (a2 ++ (P ++ [':']) ++ b) := by
      rw [hab, ha]
      simp
    unfold displayValue
    rw [hre, dropWhile_colon_append _ ha1, List.drop_one, List.tail_cons]
    apply mem_pyStrip_of_mem _ (by decide)
    simp
  · left
    have hPne : P ≠ [] := by
      intro he
      rw [he] at hPo
      cases hPo
    have hcap : ':' ∉ a ++ P := by
      intro hmem
      rcases List.mem_append.mp hmem with hm | hm
      · exact hca hm
      · exact hP hm
    have hre : resp = (a ++ P) ++ ':' :: b := by
      rw [hab]
      simp
    unfold displayKey
    rw [hre, takeWhile_colon_append _ hcap]
    apply getLast?_pyStrip _ (by decide)
    rw [List.getLast?_append_of_ne_nil _ hPne]
    exact hPo

/-! ### Inversion of the display classifier -/

/-- A motor-pulley display write requires the alias key and a successful integer coercion. -/
theorem displayLineClass_mp_inv {l : Chars} {n : Int}
    (h : displayLineClass l = DispUpd.mp n) :
    (displayKey l = "Motor Pulley Teeth".data ∨ displayKey l = "Motor pulley teeth".data) ∧
      pyInt (displayValue l) = some n := by
  unfold displayLineClass at h
  dsimp only at h
  by_cases h0 : (l.any fun ch => ch == ':') = true
  case neg =>
    rw [if_neg h0] at h
    cases h
  case pos =>
  rw [if_pos h0] at h
  by_cases h1 : displayKey l = "Firmware Version".data ∨ displayKey l = "Firmware version".data
  · rw [if_pos h1] at h
    cases h
  rw [if_neg h1] at h
  by_cases h2 : displayKey l = "Throttle Inverted".data ∨ displayKey l = "Throttle inversion".data
  · rw [if_pos h2] at h
    cases h
  rw [if_neg h2] at h
  by_cases h3 : displayKey l = "Level Assistant".data ∨ displayKey l = "Level assistant".data
  · rw [if_pos h3] at h
    cases h
  rw [if_neg h3] at h
  by_cases h4 : displayKey l = "Speed Unit".data ∨ displayKey l = "Speed unit".data
  · rw [if_pos h4] at h
    cases h
  rw [if_neg h4] at h
  by_cases h5 : displayKey l = "Motor Pulley Teeth".data ∨ displayKey l = "Motor pulley teeth".data
  · rw [if_pos h5] at h
    rcases hv : pyInt (displayValue l) with _ | v <;> rw [hv] at h <;> dsimp only at h
    · cases h
    · injection h with hinj
      exact ⟨h5, by rw [hinj]⟩
  rw [if_neg h5] at h
  by_cases h6 : displayKey l = "Wheel Pulley Teeth".data ∨ displayKey l = "Wheel pulley teeth".data
  · rw [if_pos h6] at h
    rcases hv : pyInt (displayValue l) with _ | v <;> rw [hv] at h <;> dsimp only at h <;> cases h
  rw [if_neg h6] at h
  by_cases h7 : displayKey l = "Wheel Diameter".data ∨ displayKey l = "Wheel diameter".data
  · rw [if_pos h7] at h
    rcases hv : pyInt (diaValue (displayValue l)) with _ | v <;> rw [hv] at h <;> dsimp only at h <;> cases h
  rw [if_neg h7] at h
  by_cases h8 : displayKey l = "Motor Poles".data ∨ displayKey l = "Motor poles".data
  · rw [if_pos h8] at h
    rcases hv : pyInt (displayValue l) with _ | v <;> rw [hv] at h <;> dsimp only at h <;> cases h
  rw [if_neg h8] at h
  by_cases h9 : displayKey l = "BLE Connected".data ∨ displayKey l = "BLE connected".data
  · rw [if_pos h9] at h
    cases h
  rw [if_neg h9] at h
  cases h

/-- A wheel-pulley display write requires the alias key and a successful integer coercion. -/
theorem displayLineClass_wp_inv {l : Chars} {n : Int}
    (h : displayLineClass l = DispUpd.wp n) :
    (displayKey l = "Wheel Pulley Teeth".data ∨ displayKey l = "Wheel pulley teeth".data) ∧
      pyInt (displayValue l) = some n := by
  unfold displayLineClass at h
  dsimp only at h
  by_cases h0 : (l.any fun ch => ch == ':') = true
  case neg =>
    rw [if_neg h0] at h
    cases h
  case pos =>
  rw [if_pos h0] at h
  by_cases h1 : displayKey l = "Firmware Version".data ∨ displayKey l = "Firmware version".data
  · rw [if_pos h1] at h
    cases h
  rw [if_neg h1] at h
  by_cases h2 : displayKey l = "Throttle Inverted".data ∨ displayKey l = "Throttle inversion".data
  · rw [if_pos h2] at h
    cases h
  rw [if_neg h2] at h
  by_cases h3 : displayKey l = "Level Assistant".data ∨ displayKey l = "Level assistant".data
  · rw [if_pos h3] at h
    cases h
  rw [if_neg h3] at h
  by_cases h4 : displayKey l = "Speed Unit".data ∨ displayKey l = "Speed unit".data
  · rw [if_pos h4] at h
    cases h
  rw [if_neg h4] at h
  by_cases h5 : displayKey l = "Motor Pulley Teeth".data ∨ displayKey l = "Motor pulley teeth".data
  · rw [if_pos h5] at h
    rcases hv : pyInt (displayValue l) with _ | v <;> rw [hv] at h <;> dsimp only at h <;> cases h
  rw [if_neg h5] at h
  by_cases h6 : displayKey l = "Wheel Pulley Teeth".data ∨ displayKey l = "Wheel pulley teeth".data
  · rw [if_pos h6] at h
    rcases hv : pyInt (displayValue l) with _ | v <;> rw [hv] at h <;> dsimp only at h
    · cases h
    · injection h with hinj
      exact ⟨h6, by rw [hinj]⟩
  rw [if_neg h6] at h
  by_cases h7 : displayKey l = "Wheel Diameter".data ∨ displayKey l = "Wheel diameter".data
  · rw [if_pos h7] at h
    rcases hv : pyInt (diaValue (displayValue l)) with _ | v <;> rw [hv] at h <;> dsimp only at h <;> cases h
  rw [if_neg h7] at h
  by_cases h8 : displayKey l = "Motor Poles".data ∨ displayKey l = "Motor poles".data
  · rw [if_pos h8] at h
    rcases hv : pyInt (displayValue l) with _ | v <;> rw [hv] at h <;> dsimp only at h <;> cases h
  rw [if_neg h8] at h
  by_cases h9 : displayKey l = "BLE Connected".data ∨ displayKey l = "BLE connected".data
  · rw [if_pos h9] at h
    cases h
  rw [if_neg h9] at h
  cases h

/-- A motor-poles display write requires the alias key and a successful integer coercion. -/
theorem displayLineClass_pol_inv {l : Chars} {n : Int}
    (h : displayLineClass l = DispUpd.pol n) :
    (displayKey l = "Motor Poles".data ∨ displayKey l = "Motor poles".data) ∧
      pyInt (displayValue l) = some n := by
  unfold displayLineClass at h
  dsimp only at h
  by_cases h0 : (l.any fun ch => ch == ':') = true
  case neg =>
    rw [if_neg h0] at h
    cases h
  case pos =>
  rw [if_pos h0] at h
  by_cases h1 : displayKey l = "Firmware Version".data ∨ displayKey l = "Firmware version".data
  · rw [if_pos h1] at h
    cases h
  rw [if_neg h1] at h
  by_cases h2 : displayKey l = "Throttle Inverted".data ∨ displayKey l = "Throttle inversion".data
  · rw [if_pos h2] at h
    cases h
  rw [if_neg h2] at h
  by_cases h3 : displayKey l = "Level Assistant".data ∨ displayKey l = "Level assistant".data
  · rw [if_pos h3] at h
    cases h
  rw [if_neg h3] at h
  by_cases h4 : displayKey l = "Speed Unit".data ∨ displayKey l = "Speed unit".data
  · rw [if_pos h4] at h
    cases h
  rw [if_neg h4] at h
  by_cases h5 : displayKey l = "Motor Pulley Teeth".data ∨ displayKey l = "Motor pulley teeth".data
  · rw [if_pos h5] at h
    rcases hv : pyInt (displayValue l) with _ | v <;> rw [hv] at h <;> dsimp only at h <;> cases h
  rw [if_neg h5] at h
  by_cases h6 : displayKey l = "Wheel Pulley Teeth".data ∨ displayKey l = "Wheel pulley teeth".data
  · rw [if_pos h6] at h
    rcases hv : pyInt (displayValue l) with _ | v <;> rw [hv] at h <;> dsimp only at h <;> cases h
  rw [if_neg h6] at h
  by_cases h7 : displayKey l = "Wheel Diameter".data ∨ displayKey l = "Wheel diameter".data
  · rw [if_pos h7] at h
    rcases hv : pyInt (diaValue (displayValue l)) with _ | v <;> rw [hv] at h <;> dsimp only at h <;> cases h
  rw [if_neg h7] at h
  by_cases h8 : displayKey l = "Motor Poles".data ∨ displayKey l = "Motor poles".data
  · rw [if_pos h8] at h
    rcases hv : pyInt (displayValue l) with _ | v <;> rw [hv] at h <;> dsimp only at h
    · cases h
    · injection h with hinj
      exact ⟨h8, by rw [hinj]⟩
  rw [if_neg h8] at h
  by_cases h9 : displayKey l = "BLE Connected".data ∨ displayKey l = "BLE connected".data
  · rw [if_pos h9] at h
    cases h
  rw [if_neg h9] at h
  cases h

/-- A wheel-diameter display write requires the alias key and a successful integer coercion of the cut value. -/
theorem displayLineClass_wd_inv {l : Chars} {n : Int}
    (h : displayLineClass l = DispUpd.wd n) :
    (displayKey l = "Wheel Diameter".data ∨ displayKey l = "Wheel diameter".data) ∧
      pyInt (diaValue (displayValue l)) = some n := by
  unfold displayLineClass at h
  dsimp only at h
  by_cases h0 : (l.any fun ch => ch == ':') = true
  case neg =>
    rw [if_neg h0] at h
    cases h
  case pos =>
  rw [if_pos h0] at h
  by_cases h1 : displayKey l = "Firmware Version".data ∨ displayKey l = "Firmware version".data
  · rw [if_pos h1] at h
    cases h
  rw [if_neg h1] at h
  by_cases h2 : displayKey l = "Throttle Inverted".data ∨ displayKey l = "Throttle inversion".data
  · rw [if_pos h2] at h
    cases h
  rw [if_neg h2] at h
  by_cases h3 : displayKey l = "Level Assistant".data ∨ displayKey l = "Level assistant".data
  · rw [if_pos h3] at h
    cases h
  rw [if_neg h3] at h
  by_cases h4 : displayKey l = "Speed Unit".data ∨ displayKey l = "Speed unit".data
  · rw [if_pos h4] at h
    cases h
  rw [if_neg h4] at h
  by_cases h5 : displayKey l = "Motor Pulley Teeth".data ∨ displayKey l = "Motor pulley teeth".data
  · rw [if_pos h5] at h
    rcases hv : pyInt (displayValue l) with _ | v <;> rw [hv] at h <;> dsimp only at h <;> cases h
  rw [if_neg h5] at h
  by_cases h6 : displayKey l = "Wheel Pulley Teeth".data ∨ displayKey l = "Wheel pulley teeth".data
  · rw [if_pos h6] at h
    rcases hv : pyInt (displayValue l) with _ | v <;> rw [hv] at h <;> dsimp only at h <;> cases h
  rw [if_neg h6] at h
  by_cases h7 : displayKey l = "Wheel Diameter".data ∨ displayKey l = "Wheel diameter".data
  · rw [if_pos h7] at h
    rcases hv : pyInt (diaValue (displayValue l)) with _ | v <;> rw [hv] at h <;> dsimp only at h
    · cases h
    · injection h with hinj
      exact ⟨h7, by rw [hinj]⟩
  rw [if_neg h7] at h
  by_cases h8 : displayKey l = "Motor Poles".data ∨ displayKey l = "Motor poles".data
  · rw [if_pos h8] at h
    rcases hv : pyInt (displayValue l) with _ | v <;> rw [hv] at h <;> dsimp only at h <;> cases h
  rw [if_neg h8] at h
  by_cases h9 : displayKey l = "BLE Connected".data ∨ displayKey l = "BLE connected".data
  · rw [if_pos h9] at h
    cases h
  rw [if_neg h9] at h
  cases h

/-! ### A `<label> set to:` line cannot be re-claimed by the display
parser for the same integer field -/

theorem displayLineUpd_motor_pulley_guard {resp : Chars} (c : Config)
    (hc : containsSub resp "Motor pulley teeth set to:".data = true) :
    (displayLineUpd c resp).motor_pulley = c.motor_pulley := by
  have hg := display_key_or_value resp "Motor pulley teeth set to".data (by decide) (by decide)
    (by
      rw [show "Motor pulley teeth set to".data ++ [':'] =
        "Motor pulley teeth set to:".data from by decide]
      exact hc)
  unfold displayLineUpd
  rcases hcl : displayLineClass resp with v | b | b | b | nn | nn | nn | nn | b | _
  case mp =>
    obtain ⟨hkey, hval⟩ := displayLineClass_mp_inv hcl
    rcases hg with hko | hvc
    · rcases hkey with hk | hk <;> rw [hk] at hko <;> exact absurd hko (by decide)
    · rw [pyInt_none_of_colon hvc] at hval
      cases hval
  all_goals rfl

theorem displayLineUpd_wheel_pulley_guard {resp : Chars} (c : Config)
    (hc : containsSub resp "Wheel pulley teeth set to:".data = true) :
    (displayLineUpd c resp).wheel_pulley = c.wheel_pulley := by
  have hg := display_key_or_value resp "Wheel pulley teeth set to".data (by decide) (by decide)
    (by
      rw [show "Wheel pulley teeth set to".data ++ [':'] =
        "Wheel pulley teeth set to:".data from by decide]
      exact hc)
  unfold displayLineUpd
  rcases hcl : displayLineClass resp with v | b | b | b | nn | nn | nn | nn | b | _
  case wp =>
    obtain ⟨hkey, hval⟩ := displayLineClass_wp_inv hcl
    rcases hg with hko | hvc
    · rcases hkey with hk | hk <;> rw [hk] at hko <;> exact absurd hko (by decide)
    · rw [pyInt_none_of_colon hvc] at hval
      cases hval
  all_goals rfl

theorem displayLineUpd_motor_poles_guard {resp : Chars} (c : Config)
    (hc : containsSub resp "Motor poles set to:".data = true) :
    (displayLineUpd c resp).motor_poles = c.motor_poles := by
  have hg := display_key_or_value resp "Motor poles set to".data (by decide) (by decide)
    (by
      rw [show "Motor poles set to".data ++ [':'] =
        "Motor poles set to:".data from by decide]
      exact hc)
  unfold displayLineUpd
  rcases hcl : displayLineClass resp with v | b | b | b | nn | nn | nn | nn | b | _
  case pol =>
    obtain ⟨hkey, hval⟩ := displayLineClass_pol_inv hcl
    rcases hg with hko | hvc
    · rcases hkey with hk | hk <;> rw [hk] at hko <;> exact absurd hko (by decide)
    · rw [pyInt_none_of_colon hvc] at hval
      cases hval
  all_goals rfl

theorem displayLineUpd_wheel_dia_guard {resp : Chars} (c : Config)
    (hkey : ¬ (displayKey resp = "Wheel Diameter".data ∨
      displayKey resp = "Wheel diameter".data)) :
    (displayLineUpd c resp).wheel_diameter_mm = c.wheel_diameter_mm := by
  unfold displayLineUpd
  rcases hcl : displayLineClass resp with v | b | b | b | nn | nn | nn | nn | b | _
  case wd => exact absurd (displayLineClass_wd_inv hcl).1 hkey
  all_goals rfl

theorem bool_false_of_not_true {b : Bool} (h : ¬ b = true) : b = false := by
  cases b
  · rfl
  · exact absurd rfl h

theorem stepDisplay_motor_pulley_guard {resp : Chars} (c : Config)
    (hn : Char.ofNat 10 ∉ resp)
    (hc : containsSub resp "Motor pulley teeth set to:".data = true) :
    (stepDisplay resp c).motor_pulley = c.motor_pulley := by
  by_cases ht : (containsSub resp "Current Configuration".data ||
      containsSub resp "Configuration:".data ||
      displayKeywords.any (fun k => containsSub resp k)) = true
  · rw [stepDisplay_fold c ht, splitNl_no_nl hn, List.foldl_cons, List.foldl_nil]
    exact displayLineUpd_motor_pulley_guard c hc
  · simp only [Bool.or_eq_true, not_or] at ht
    obtain ⟨⟨h1, h2⟩, h3⟩ := ht
    rw [stepDisplay_not (bool_false_of_not_true h1) (bool_false_of_not_true h2)
      (bool_false_of_not_true h3)]

theorem stepDisplay_wheel_pulley_guard {resp : Chars} (c : Config)
    (hn : Char.ofNat 10 ∉ resp)
    (hc : containsSub resp "Wheel pulley teeth set to:".data = true) :
    (stepDisplay resp c).wheel_pulley = c.wheel_pulley := by
  by_cases ht : (containsSub resp "Current Configuration".data ||
      containsSub resp "Configuration:".data ||
      displayKeywords.any (fun k => containsSub resp k)) = true
  · rw [stepDisplay_fold c ht, splitNl_no_nl hn, List.foldl_cons, List.foldl_nil]
    exact displayLineUpd_wheel_pulley_guard c hc
  · simp only [Bool.or_eq_true, not_or] at ht
    obtain ⟨⟨h1, h2⟩, h3⟩ := ht
    rw [stepDisplay_not (bool_false_of_not_true h1) (bool_false_of_not_true h2)
      (bool_false_of_not_true h3)]

theorem stepDisplay_motor_poles_guard {resp : Chars} (c : Config)
    (hn : Char.ofNat 10 ∉ resp)
    (hc : containsSub resp "Motor poles set to:".data = true) :
    (stepDisplay resp c).motor_poles = c.motor_poles := by
  by_cases ht : (containsSub resp "Current Configuration".data ||
      containsSub resp "Configuration:".data ||
      displayKeywords.any (fun k => containsSub resp k)) = true
  · rw [stepDisplay_fold c ht, splitNl_no_nl hn, List.foldl_cons, List.foldl_nil]
    exact displayLineUpd_motor_poles_guard c hc
  · simp only [Bool.or_eq_true, not_or] at ht
    obtain ⟨⟨h1, h2⟩, h3⟩ := ht
    rw [stepDisplay_not (bool_false_of_not_true h1) (bool_false_of_not_true h2)
      (bool_false_of_not_true h3)]

theorem stepDisplay_wheel_dia_guard {resp : Chars} (c : Config)
    (hn : Char.ofNat 10 ∉ resp)
    (hkey : ¬ (displayKey resp = "Wheel Diameter".data ∨
      displayKey resp = "Wheel diameter".data)) :
    (stepDisplay resp c).wheel_diameter_mm = c.wheel_diameter_mm := by
  by_cases ht : (containsSub resp "Current Configuration".data ||
      containsSub resp "Configuration:".data ||
      displayKeywords.any (fun k => containsSub resp k)) = true
  · rw [stepDisplay_fold c ht, splitNl_no_nl hn, List.foldl_cons, List.foldl_nil]
    exact displayLineUpd_wheel_dia_guard c hkey
  · simp only [Bool.or_eq_true, not_or] at ht
    obtain ⟨⟨h1, h2⟩, h3⟩ := ht
    rw [stepDisplay_not (bool_false_of_not_true h1) (bool_false_of_not_true h2)
      (bool_false_of_not_true h3)]

/-- C5 counterexample: the single line
`PID Kp set to: 5: Kp (Proportional): === Level Assistant PID Parameters ===`
has a payload on which the `PID Kp set to:` handler's float parse fails,
yet processing the line changes `pid_kp` from its previous value 0.8 to
5: the same line also matches the (non-exclusive) PID-parameter-block
rule, which reads the text between the line's first and second colon. -/
theorem set_to_parse_failure_cex :
    containsSub
      "PID Kp set to: 5: Kp (Proportional): === Level Assistant PID Parameters ===".data
      "PID Kp set to:".data = true ∧
    pyFloat (seg1 "PID Kp set to:".data
      "PID Kp set to: 5: Kp (Proportional): === Level Assistant PID Parameters ===".data) =
      none ∧
    (parse_config_response initialConfig
      "PID Kp set to: 5: Kp (Proportional): === Level Assistant PID Parameters ===".data).pid_kp =
      PyF.fin 5 ∧
    initialConfig.pid_kp = PyF.fin (mkRat 8 10) ∧
    PyF.fin 5 ≠ PyF.fin (mkRat 8 10) := by
  refine ⟨by decide, by decide, by decide, rfl, by decide⟩

/-- C5 amended: a `<Param> set to:` line whose payload fails the numeric
parse never errors, and leaves the named mirror field at its previous
value provided the same line does not also match a different
mirror-updating rule for that field: for the PID parameters the line must
not also contain the PID-parameter-block header; for the integer
parameters this holds for any single line, except that a wheel-diameter
line must not simultaneously be a `Wheel Diameter` configuration-display
line (the display rule re-coerces the first token of its value). -/
theorem set_to_parse_failure_amended :
    (∀ (c : Config) (resp : Chars),
      containsSub resp "PID Kp set to:".data = true →
      pyFloat (seg1 "PID Kp set to:".data resp) = none →
      containsSub resp "=== Level Assistant PID Parameters ===".data = false →
      (parse_config_response c resp).pid_kp = c.pid_kp) ∧
    (∀ (c : Config) (resp : Chars),
      containsSub resp "PID Ki set to:".data = true →
      pyFloat (seg1 "PID Ki set to:".data resp) = none →
      containsSub resp "=== Level Assistant PID Parameters ===".data = false →
      (parse_config_response c resp).pid_ki = c.pid_ki) ∧
    (∀ (c : Config) (resp : Chars),
      containsSub resp "PID Kd set to:".data = true →
      pyFloat (seg1 "PID Kd set to:".data resp) = none →
      containsSub resp "=== Level Assistant PID Parameters ===".data = false →
      (parse_config_response c resp).pid_kd = c.pid_kd) ∧
    (∀ (c : Config) (resp : Chars),
      containsSub resp "PID Output Max set to:".data = true →
      pyFloat (seg1 "PID Output Max set to:".data resp) = none →
      containsSub resp "=== Level Assistant PID Parameters ===".data = false →
      (parse_config_response c resp).pid_output_max = c.pid_output_max) ∧
    (∀ (c : Config) (resp : Chars),
      Char.ofNat 10 ∉ resp →
      containsSub resp "Motor pulley teeth set to:".data = true →
      pyInt (seg1 "Motor pulley teeth set to:".data resp) = none →
      (parse_config_response c resp).motor_pulley = c.motor_pulley) ∧
    (∀ (c : Config) (resp : Chars),
      Char.ofNat 10 ∉ resp →
      containsSub resp "Wheel pulley teeth set to:".data = true →
      pyInt (seg1 "Wheel pulley teeth set to:".data resp) = none →
      (parse_config_response c resp).wheel_pulley = c.wheel_pulley) ∧
    (∀ (c : Config) (resp : Chars),
      Char.ofNat 10 ∉ resp →
      containsSub resp "Wheel diameter set to:".data = true →
      pyInt (seg0 "mm".data (seg1 "Wheel diameter set to:".data resp)) = none →
      ¬ (displayKey resp = "Wheel Diameter".data ∨
        displayKey resp = "Wheel diameter".data) →
      (parse_config_response c resp).wheel_diameter_mm = c.wheel_diameter_mm) ∧
    (∀ (c : Config) (resp : Chars),
      Char.ofNat 10 ∉ resp →
      containsSub resp "Motor poles set to:".data = true →
      pyInt (seg1 "Motor poles set to:".data resp) = none →
      (parse_config_response c resp).motor_poles = c.motor_poles) := by
  refine ⟨?_, ?_, ?_, ?_, ?_, ?_, ?_, ?_⟩
  · intro c resp _ hp hh
    unfold parse_config_response
    rw [stepDisplay_pid_kp, stepFirmware_pid_kp, stepMotorPoles_pid_kp,
      stepWheelDia_pid_kp, stepWheelPulley_pid_kp, stepMotorPulley_pid_kp,
      stepPidBlock_not hh, stepOutMax_pid_kp, stepKd_pid_kp, stepKi_pid_kp,
      stepKp_fail hp, stepSpeed_pid_kp, stepLevel_pid_kp, stepThrottle_pid_kp]
  · intro c resp _ hp hh
    unfold parse_config_response
    rw [stepDisplay_pid_ki, stepFirmware_pid_ki, stepMotorPoles_pid_ki,
      stepWheelDia_pid_ki, stepWheelPulley_pid_ki, stepMotorPulley_pid_ki,
      stepPidBlock_not hh, stepOutMax_pid_ki, stepKd_pid_ki, stepKi_fail hp,
      stepKp_pid_ki, stepSpeed_pid_ki, stepLevel_pid_ki, stepThrottle_pid_ki]
  · intro c resp _ hp hh
    unfold parse_config_response
    rw [stepDisplay_pid_kd, stepFirmware_pid_kd, stepMotorPoles_pid_kd,
      stepWheelDia_pid_kd, stepWheelPulley_pid_kd, stepMotorPulley_pid_kd,
      stepPidBlock_not hh, stepOutMax_pid_kd, stepKd_fail hp, stepKi_pid_kd,
      stepKp_pid_kd, stepSpeed_pid_kd, stepLevel_pid_kd, stepThrottle_pid_kd]
  · intro c resp _ hp hh
    unfold parse_config_response
    rw [stepDisplay_pid_output_max, stepFirmware_pid_output_max,
      stepMotorPoles_pid_output_max, stepWheelDia_pid_output_max,
      stepWheelPulley_pid_output_max, stepMotorPulley_pid_output_max,
      stepPidBlock_not hh, stepOutMax_fail hp, stepKd_pid_output_max,
      stepKi_pid_output_max, stepKp_pid_output_max, stepSpeed_pid_output_max,
      stepLevel_pid_output_max, stepThrottle_pid_output_max]
  · intro c resp hn hc hp
    unfold parse_config_response
    rw [stepDisplay_motor_pulley_guard _ hn hc, stepFirmware_motor_pulley,
      stepMotorPoles_motor_pulley, stepWheelDia_motor_pulley,
      stepWheelPulley_motor_pulley, stepMotorPulley_fail hp,
      stepPidBlock_motor_pulley, stepOutMax_motor_pulley, stepKd_motor_pulley,
      stepKi_motor_pulley, stepKp_motor_pulley, stepSpeed_motor_pulley,
      stepLevel_motor_pulley, stepThrottle_motor_pulley]
  · intro c resp hn hc hp
    unfold parse_config_response
    rw [stepDisplay_wheel_pulley_guard _ hn hc, stepFirmware_wheel_pulley,
      stepMotorPoles_wheel_pulley, stepWheelDia_wheel_pulley,
      stepWheelPulley_fail hp, stepMotorPulley_wheel_pulley,
      stepPidBlock_wheel_pulley, stepOutMax_wheel_pulley, stepKd_wheel_pulley,
      stepKi_wheel_pulley, stepKp_wheel_pulley, stepSpeed_wheel_pulley,
      stepLevel_wheel_pulley, stepThrottle_wheel_pulley]
  · intro c resp hn _ hp hkey
    unfold parse_config_response
    rw [stepDisplay_wheel_dia_guard _ hn hkey, stepFirmware_wheel_diameter_mm,
      stepMotorPoles_wheel_diameter_mm, stepWheelDia_fail hp,
      stepWheelPulley_wheel_diameter_mm, stepMotorPulley_wheel_diameter_mm,
      stepPidBlock_wheel_diameter_mm, stepOutMax_wheel_diameter_mm,
      stepKd_wheel_diameter_mm, stepKi_wheel_diameter_mm, stepKp_wheel_diameter_mm,
      stepSpeed_wheel_diameter_mm, stepLevel_wheel_diameter_mm,
      stepThrottle_wheel_diameter_mm]
  · intro c resp hn hc hp
    unfold parse_config_response
    rw [stepDisplay_motor_poles_guard _ hn hc, stepFirmware_motor_poles,
      stepMotorPoles_fail hp, stepWheelDia_motor_poles,
      stepWheelPulley_motor_poles, stepMotorPulley_motor_poles,
      stepPidBlock_motor_poles, stepOutMax_motor_poles, stepKd_motor_poles,
      stepKi_motor_poles, stepKp_motor_poles, stepSpeed_motor_poles,
      stepLevel_motor_poles, stepThrottle_motor_poles]

/-- Witness for `set_to_parse_failure_amended` at the concrete malformed
line `PID Kp set to: abc`. -/
theorem set_to_parse_failure_amended_witness :
    (parse_config_response initialConfig "PID Kp set to: abc".data).pid_kp =
      initialConfig.pid_kp :=
  set_to_parse_failure_amended.1 initialConfig "PID Kp set to: abc".data
    (by decide) (by decide) (by decide)

/-- C10: each `key: value` line of a configuration dump is processed
independently: a line on which the integer coercion fails updates
nothing (removing it from the dump changes nothing), while every other
well-formed line of the same dump still updates its field. -/
theorem config_display_line_independence :
    (∀ (c : Config) (pre post : List Chars) (bad : Chars),
      (∀ l ∈ pre ++ bad :: post, Char.ofNat 10 ∉ l) →
      (∀ x : Config, displayLineUpd x bad = x) →
      parse_config_display c (joinNl (pre ++ bad :: post)) =
        parse_config_display c (joinNl (pre ++ post))) ∧
    (∀ (x : Config) (key value : Chars),
      (key = "Motor Pulley Teeth".data ∨ key = "Motor pulley teeth".data ∨
        key = "Wheel Pulley Teeth".data ∨ key = "Wheel pulley teeth".data ∨
        key = "Motor Poles".data ∨ key = "Motor poles".data) →
      pyInt value = none →
      displayLineUpd x (key ++ ':' :: ' ' :: value) = x) ∧
    (parse_config_display initialConfig
        "Motor Pulley Teeth: 20\nWheel Diameter: 999zz\nMotor Poles: 28".data =
      { initialConfig with motor_pulley := 20, motor_poles := 28 }) := by
  refine ⟨?_, ?_, by decide⟩
  · intro c pre post bad hnl hneutral
    by_cases hpp : pre ++ post = []
    · rcases List.append_eq_nil.mp hpp with ⟨rfl, rfl⟩
      unfold parse_config_display
      rw [show joinNl ([] ++ bad :: []) = bad from rfl]
      rw [splitNl_no_nl (hnl bad (by simp))]
      rw [List.foldl_cons, List.foldl_nil, hneutral c]
      rfl
    · unfold parse_config_display
      rw [splitNl_joinNl (by simp) hnl]
      rw [splitNl_joinNl hpp (fun l hl => hnl l (by
        rcases List.mem_append.mp hl with hm | hm
        · exact List.mem_append_left _ hm
        · exact List.mem_append_right _ (List.mem_cons_of_mem _ hm)))]
      rw [List.foldl_append, List.foldl_append, List.foldl_cons, hneutral]
  · intro x key value hkey hp
    rcases hkey with rfl | rfl | rfl | rfl | rfl | rfl
    · have hany : (("Motor Pulley Teeth".data ++ ':' :: ' ' :: value).any fun ch => ch == ':') = true :=
        List.any_eq_true.mpr ⟨':', List.mem_append.mpr (Or.inr (List.mem_cons_self _ _)), by decide⟩
      have hk : displayKey ("Motor Pulley Teeth".data ++ ':' :: ' ' :: value) = "Motor Pulley Teeth".data := by
        unfold displayKey
        rw [takeWhile_colon_append _ (by decide)]
        decide
      have hv : displayValue ("Motor Pulley Teeth".data ++ ':' :: ' ' :: value) = pyStrip value := by
        unfold displayValue
        rw [dropWhile_colon_append _ (by decide), List.drop_one, List.tail_cons]
        exact pyStrip_cons_ws (by decide)
      unfold displayLineUpd displayLineClass
      dsimp only
      rw [hany, if_pos rfl, hk]
      rw [if_neg (by decide), if_neg (by decide), if_neg (by decide), if_neg (by decide), if_pos (by decide)]
      rw [hv, pyInt_pyStrip, hp]
      rfl
    · have hany : (("Motor pulley teeth".data ++ ':' :: ' ' :: value).any fun ch => ch == ':') = true :=
        List.any_eq_true.mpr ⟨':', List.mem_append.mpr (Or.inr (List.mem_cons_self _ _)), by decide⟩
      have hk : displayKey ("Motor pulley teeth".data ++ ':' :: ' ' :: value) = "Motor pulley teeth".data := by
        unfold displayKey
        rw [takeWhile_colon_append _ (by decide)]
        decide
      have hv : displayValue ("Motor pulley teeth".data ++ ':' :: ' ' :: value) = pyStrip value := by
        unfold displayValue
        rw [dropWhile_colon_append _ (by decide), List.drop_one, List.tail_cons]
        exact pyStrip_cons_ws (by decide)
      unfold displayLineUpd displayLineClass
      dsimp only
      rw [hany, if_pos rfl, hk]
      rw [if_neg (by decide), if_neg (by decide), if_neg (by decide), if_neg (by decide), if_pos (by decide)]
      rw [hv, pyInt_pyStrip, hp]
      rfl
    · have hany : (("Wheel Pulley Teeth".data ++ ':' :: ' ' :: value).any fun ch => ch == ':') = true :=
        List.any_eq_true.mpr ⟨':', List.mem_append.mpr (Or.inr (List.mem_cons_self _ _)), by decide⟩
      have hk : displayKey ("Wheel Pulley Teeth".data ++ ':' :: ' ' :: value) = "Wheel Pulley Teeth".data := by
        unfold displayKey
        rw [takeWhile_colon_append _ (by decide)]
        decide
      have hv : displayValue ("Wheel Pulley Teeth".data ++ ':' :: ' ' :: value) = pyStrip value := by
        unfold displayValue
        rw [dropWhile_colon_append _ (by decide), List.drop_one, List.tail_cons]
        exact pyStrip_cons_ws (by decide)
      unfold displayLineUpd displayLineClass
      dsimp only
      rw [hany, if_pos rfl, hk]
      rw [if_neg (by decide), if_neg (by decide), if_neg (by decide), if_neg (by decide), if_neg (by decide), if_pos (by decide)]
      rw [hv, pyInt_pyStrip, hp]
      rfl
    · have hany : (("Wheel pulley teeth".data ++ ':' :: ' ' :: value).any fun ch => ch == ':') = true :=
        List.any_eq_true.mpr ⟨':', List.mem_append.mpr (Or.inr (List.mem_cons_self _ _)), by decide⟩
      have hk : displayKey ("Wheel pulley teeth".data ++ ':' :: ' ' :: value) = "Wheel pulley teeth".data := by
        unfold displayKey
        rw [takeWhile_colon_append _ (by decide)]
        decide
      have hv : displayValue ("Wheel pulley teeth".data ++ ':' :: ' ' :: value) = pyStrip value := by
        unfold displayValue
        rw [dropWhile_colon_append _ (by decide), List.drop_one, List.tail_cons]
        exact pyStrip_cons_ws (by decide)
      unfold displayLineUpd displayLineClass
      dsimp only
      rw [hany, if_pos rfl, hk]
      rw [if_neg (by decide), if_neg (by decide), if_neg (by decide), if_neg (by decide), if_neg (by decide), if_pos (by decide)]
      rw [hv, pyInt_pyStrip, hp]
      rfl
    · have hany : (("Motor Poles".data ++ ':' :: ' ' :: value).any fun ch => ch == ':') = true :=
        List.any_eq_true.mpr ⟨':', List.mem_append.mpr (Or.inr (List.mem_cons_self _ _)), by decide⟩
      have hk : displayKey ("Motor Poles".data ++ ':' :: ' ' :: value) = "Motor Poles".data := by
        unfold displayKey
        rw [takeWhile_colon_append _ (by decide)]
        decide
      have hv : displayValue ("Motor Poles".data ++ ':' :: ' ' :: value) = pyStrip value := by
        unfold displayValue
        rw [dropWhile_colon_append _ (by decide), List.drop_one, List.tail_cons]
        exact pyStrip_cons_ws (by decide)
      unfold displayLineUpd displayLineClass
      dsimp only
      rw [hany, if_pos rfl, hk]
      rw [if_neg (by decide), if_neg (by decide), if_neg (by decide), if_neg (by decide), if_neg (by decide), if_neg (by decide), if_neg (by decide), if_pos (by decide)]
      rw [hv, pyInt_pyStrip, hp]
      rfl
    · have hany : (("Motor poles".data ++ ':' :: ' ' :: value).any fun ch => ch == ':') = true :=
        List.any_eq_true.mpr ⟨':', List.mem_append.mpr (Or.inr (List.mem_cons_self _ _)), by decide⟩
      have hk : displayKey ("Motor poles".data ++ ':' :: ' ' :: value) = "Motor poles".data := by
        unfold displayKey
        rw [takeWhile_colon_append _ (by decide)]
        decide
      have hv : displayValue ("Motor poles".data ++ ':' :: ' ' :: value) = pyStrip value := by
        unfold displayValue
        rw [dropWhile_colon_append _ (by decide), List.drop_one, List.tail_cons]
        exact pyStrip_cons_ws (by decide)
      unfold displayLineUpd displayLineClass
      dsimp only
      rw [hany, if_pos rfl, hk]
      rw [if_neg (by decide), if_neg (by decide), if_neg (by decide), if_neg (by decide), if_neg (by decide), if_neg (by decide), if_neg (by decide), if_pos (by decide)]
      rw [hv, pyInt_pyStrip, hp]
      rfl

/-- Witness for `config_display_line_independence`: dropping the
malformed `Motor Poles: abc` line from a two-line dump does not change
the parse result. -/
theorem config_display_line_independence_witness :
    parse_config_display initialConfig
        (joinNl ["Motor Pulley Teeth: 20".data, "Motor Poles: abc".data]) =
      parse_config_display initialConfig (joinNl ["Motor Pulley Teeth: 20".data]) :=
  config_display_line_independence.1 initialConfig ["Motor Pulley Teeth: 20".data] []
    "Motor Poles: abc".data (by decide)
    (fun x => config_display_line_independence.2.1 x "Motor Poles".data "abc".data
      (Or.inr (Or.inr (Or.inr (Or.inr (Or.inl rfl))))) (by decide))

/-- C8 counterexample: the reader decodes with `errors='ignore'`, which
silently drops undecodable bytes, while lossy replacement would keep a
U+FFFD replacement character.  On the byte sequence `0xFF 'a'` the code
forwards `a`, whereas a lossy-replacement reader forwards `U+FFFD a`. -/
theorem read_serial_decode_cex :
    read_serial [255, 97] = some ['a'] ∧
    read_serial_replace [255, 97] = some [replChar, 'a'] ∧
    read_serial [255, 97] ≠ read_serial_replace [255, 97] :=
  ⟨by decide, by decide, by decide⟩

/-- C8 amended: the reader decodes each received byte sequence as UTF-8
discarding undecodable bytes (`errors='ignore'`, total, never raises),
trims surrounding whitespace from the decoded text, and forwards the
line only when it is non-empty after trimming; every forwarded line is
exactly the trimmed decode, non-empty, and trim-stable. -/
theorem read_serial_amended :
    ∀ bytes : List Nat,
      (read_serial bytes = none ↔ pyStrip (utf8Decode false bytes) = []) ∧
      (∀ l, read_serial bytes = some l →
        l = pyStrip (utf8Decode false bytes) ∧ l ≠ [] ∧ pyStrip l = l) := by
  intro bytes
  unfold read_serial
  by_cases h : pyStrip (utf8Decode false bytes) = []
  · rw [if_pos h]
    exact ⟨iff_of_true rfl h, fun l hl => by cases hl⟩
  · rw [if_neg h]
    refine ⟨iff_of_false (Option.some_ne_none _) h, fun l hl => ?_⟩
    injection hl with hl
    subst hl
    exact ⟨rfl, h, pyStrip_idem _⟩

/-- Witness for `read_serial_amended` at the bytes of `" a "`. -/
theorem read_serial_amended_witness :
    read_serial [32, 97, 32] = some ['a'] ∧ (['a'] : Chars) ≠ [] :=
  ⟨by decide, ((read_serial_amended [32, 97, 32]).2 ['a'] (by decide)).2.1⟩

/-- C9: a missing firmware file fails the flash immediately and the
external subprocess is never invoked; with all inputs valid the
subprocess runs, every streamed output line is forwarded 1:1 to the log
sink with the `[FLASH]` prefix, the terminal outcome is complete exactly
when the exit code is 0, and a non-zero exit fails carrying the code. -/
theorem flash_firmware_validation_and_stream :
    ∀ e : FlashEnv,
      (e.firmware_exists = false →
        (flash_firmware e).invoked = false ∧
        ∃ r, (flash_firmware e).outcome = FlashOutcome.failed r) ∧
      (e.firmware_path ≠ [] → e.firmware_exists = true → e.idf_path ≠ [] →
        (e.idf_path = "esptool".data ∨ e.idf_path = "pip_esptool".data ∨
          (e.export_sh_exists = true ∧ e.esptool_py_exists = true)) →
        e.port ≠ [] → e.confirmed = true →
        (flash_firmware e).invoked = true ∧
        (flash_firmware e).flash_lines =
          e.sub_output.map (fun l => "[FLASH] ".data ++ pyStrip l ++ [Char.ofNat 10]) ∧
        ((flash_firmware e).outcome = FlashOutcome.complete ↔ e.sub_exit = 0) ∧
        (e.sub_exit ≠ 0 → (flash_firmware e).outcome = FlashOutcome.failed
          ("Flashing failed with return code ".data ++ (toString e.sub_exit).data))) := by
  intro e
  constructor
  · intro hex
    unfold flash_firmware
    rw [if_pos (Or.inr (by rw [hex]; exact Bool.false_ne_true))]
    exact ⟨rfl, _, rfl⟩
  · intro hpath hex hidf htool hport hconf
    unfold flash_firmware flash_firmware_worker
    rw [if_neg (by rintro (hp | hb); exacts [hpath hp, hb hex])]
    rw [if_neg hidf]
    rw [if_neg (by
      rintro ⟨h1, h2, h3⟩
      rcases htool with ht | ht | ⟨hsh, _⟩
      exacts [h1 ht, h2 ht, h3 hsh])]
    rw [if_neg hport]
    rw [if_neg (not_not_intro hconf)]
    rw [if_neg (by
      rintro ⟨h1, h2, h3⟩
      rcases htool with ht | ht | ⟨_, hpy⟩
      exacts [h1 ht, h2 ht, h3 hpy])]
    refine ⟨rfl, rfl, ?_, ?_⟩
    · by_cases hz : e.sub_exit = 0
      · rw [if_pos hz]
        exact iff_of_true rfl hz
      · rw [if_neg hz]
        exact iff_of_false (fun h => FlashOutcome.noConfusion h) hz
    · intro hnz
      rw [if_neg hnz]

/-- Witness for `flash_firmware_validation_and_stream`: a missing
firmware file never invokes the subprocess, and a fully valid attempt
with exit code 0 completes. -/
theorem flash_firmware_validation_and_stream_witness :
    (flash_firmware
        { firmware_path := "fw.bin".data, firmware_exists := false, idf_path := []
          export_sh_exists := false, esptool_py_exists := false, port := []
          confirmed := false, sub_output := [], sub_exit := 0 }).invoked = false ∧
    (flash_firmware
        { firmware_path := "fw.bin".data, firmware_exists := true
          idf_path := "esptool".data, export_sh_exists := false
          esptool_py_exists := false, port := "COM3".data, confirmed := true
          sub_output := ["ok".data], sub_exit := 0 }).outcome = FlashOutcome.complete :=
  ⟨((flash_firmware_validation_and_stream _).1 rfl).1,
   ((flash_firmware_validation_and_stream _).2 (by decide) rfl (by decide)
      (Or.inl rfl) (by decide) rfl).2.2.1.mpr rfl⟩
